import Mathlib

/-!
Shallow embedding of `settlers.py` (ichabod801/settlers).

Conventions used throughout:
* Tiles live in an arena `tiles : List HexTile`; a tile's id is its index in
  that list (the Python code assigns ids `0, 1, 2, ...` in creation order via
  the class attribute `Hex.next_id`, and a single map creates tiles in
  exactly that order).
* Angles are the Python dict keys `0, 60, 120, 180, 240, 300` (degrees).
* The Python `y` coordinates are multiples of `1/2`; we store `y2 = 2*y`
  as an integer, so `angle_xy` becomes `dirXY` with the `dy` doubled.
* A Python `raise` (or an attribute error on `None`) is modelled by an
  `Option`-returning function producing `none`; unbounded `while True:`
  loops are modelled with an explicit fuel argument that is large enough
  for the concrete boards considered.
-/

/-- The six edge angles of a hex, `Hex.angles` in the source. -/
def angles : List Nat := [0, 60, 120, 180, 240, 300]

/-- The coordinate offset table `Hex.angle_xy`, with the `y` component
doubled so that everything stays in `Int`:
`{0: (0,-1), 60: (1,-0.5), 120: (1,0.5), 180: (0,1), 240: (-1,0.5), 300: (-1,-0.5)}`. -/
def dirXY : Nat → Int × Int
  | 0 => (0, -2)
  | 60 => (1, -1)
  | 120 => (1, 1)
  | 180 => (0, 2)
  | 240 => (-1, 1)
  | 300 => (-1, -1)
  | _ => (0, 0)

/-- The six neighbor slots of a hex, the Python dict
`self.neighbors = {angle: None for angle in self.angles}`. -/
structure Nbrs where
  a0 : Option Nat
  a60 : Option Nat
  a120 : Option Nat
  a180 : Option Nat
  a240 : Option Nat
  a300 : Option Nat
deriving DecidableEq, Repr

/-- Read a neighbor slot, `self.neighbors[angle]`.  Angles outside the six
dict keys would be a Python `KeyError`; they read as `none` here and are
never used by the embedded operations. -/
def Nbrs.get (v : Nbrs) : Nat → Option Nat
  | 0 => v.a0
  | 60 => v.a60
  | 120 => v.a120
  | 180 => v.a180
  | 240 => v.a240
  | 300 => v.a300
  | _ => none

/-- Write a neighbor slot, `self.neighbors[angle] = ...`. -/
def Nbrs.put (v : Nbrs) (a : Nat) (o : Option Nat) : Nbrs :=
  match a with
  | 0 => { v with a0 := o }
  | 60 => { v with a60 := o }
  | 120 => { v with a120 := o }
  | 180 => { v with a180 := o }
  | 240 => { v with a240 := o }
  | 300 => { v with a300 := o }
  | _ => v

/-- All-empty neighbor dict. -/
def Nbrs.empty : Nbrs := ⟨none, none, none, none, none, none⟩

/-- A `CatanHex`: the graph node of `Hex` (coordinates and neighbor slots)
together with the Catan attributes `terr`, `num`, `pips`, `port`.
`pips` is the derived field kept in sync by the `num` property setter. -/
structure HexTile where
  x : Int
  y2 : Int
  nbrs : Nbrs
  terr : String
  num : Int
  pips : Int
  port : Bool
deriving DecidableEq, Repr

/-- Read tile neighbor. -/
def HexTile.nbrAt (h : HexTile) (a : Nat) : Option Nat := h.nbrs.get a

/-- Write tile neighbor. -/
def HexTile.putNbr (h : HexTile) (a : Nat) (o : Option Nat) : HexTile :=
  { h with nbrs := h.nbrs.put a o }

/-- The `num` property setter of `CatanHex`: assigning the production number
recomputes `pips = 6 - abs(7 - value)` in the same assignment. -/
def setNum (h : HexTile) (n : Int) : HexTile :=
  { h with num := n, pips := 6 - ((7 - n).natAbs : Int) }

/-- Keyword parameters for creating a `CatanHex` (`terr`, `num`, `port`). -/
structure HexParams where
  terr : String
  num : Int
  port : Bool
deriving DecidableEq, Repr

/-- `CatanHex()` default parameters. -/
def defaultParams : HexParams := ⟨"NONE", 0, false⟩

/-- The `{'port': True}` parameters used for the port ring. -/
def portParams : HexParams := ⟨"NONE", 0, true⟩

/-- `CatanHex.__init__`: the `self.num = num` assignment goes through the
property setter, so `pips` is already `6 - |7 - num|` at creation. -/
def mkTile (p : HexParams) : HexTile :=
  ⟨0, 0, Nbrs.empty, p.terr, p.num, 6 - ((7 - p.num).natAbs : Int), p.port⟩

/-- Fallback tile for out-of-arena lookups (never reached by the
operations on ids that actually exist). -/
def defaultTile : HexTile := mkTile defaultParams

/-- List lookup by index (the arena read `tiles[i]`). -/
def lget {α : Type} : List α → Nat → Option α
  | [], _ => none
  | t :: _, 0 => some t
  | _ :: ts, n + 1 => lget ts n

/-- In-place update of one list element (the arena write). -/
def lmod {α : Type} : List α → Nat → (α → α) → List α
  | [], _, _ => []
  | t :: ts, 0, f => f t :: ts
  | t :: ts, n + 1, f => t :: lmod ts n f

/-- The map state: arena of all created tiles plus the `HexMap`/`CatanMap`
attributes `hexes`, `terrain`, `ports`, `columns`, `spiral`,
`intersections`, `tries`.  All of them hold tile ids (arena indices). -/
structure MapState where
  tiles : List HexTile
  hexes : List Nat
  terrain : List Nat
  ports : List Nat
  columns : List Nat
  spiral : List Nat
  inters : List (List Nat)
  tries : Nat
deriving DecidableEq, Repr

/-- The freshly initialized map, before `build`. -/
def emptyState : MapState := ⟨[], [], [], [], [], [], [], 0⟩

/-- Update one tile of the arena. -/
def modTile (s : MapState) (i : Nat) (f : HexTile → HexTile) : MapState :=
  { s with tiles := lmod s.tiles i f }

/-- Total tile read with default. -/
def tget (s : MapState) (i : Nat) : HexTile := (lget s.tiles i).getD defaultTile

/-- Neighbor of tile `i` at angle `a`. -/
def tileNbr (s : MapState) (i a : Nat) : Option Nat := (tget s i).nbrAt a

/-- x coordinate of tile `i`. -/
def tx (s : MapState) (i : Nat) : Int := (tget s i).x

/-- Doubled y coordinate of tile `i`. -/
def ty (s : MapState) (i : Nat) : Int := (tget s i).y2

/-- Port flag of tile `i`. -/
def tilePort (s : MapState) (i : Nat) : Bool := (tget s i).port

/-- Terrain of tile `i`. -/
def tileTerr (s : MapState) (i : Nat) : String := (tget s i).terr

/-- `Hex.new_neighbor(angle, neighbor)`: link both ways and give the
neighbor coordinates offset from `self`'s.  The Python method assumes both
tiles exist; missing ids are a no-op here (they cannot occur in the
embedded construction sequences). -/
def newNeighbor (s : MapState) (t a u : Nat) : MapState :=
  match lget s.tiles t with
  | none => s
  | some ht =>
    match lget s.tiles u with
    | none => s
    | some _ =>
      let d := dirXY a
      let s1 := modTile s t (fun h => h.putNbr a (some u))
      let s2 := modTile s1 u (fun h => h.putNbr ((a + 180) % 360) (some t))
      modTile s2 u (fun h => { h with x := ht.x + d.1, y2 := ht.y2 + d.2 })

/-- One angle of `Hex.delete_neighbors`: unlink the back reference, then
the forward one. -/
def deleteStep (t : Nat) (s : MapState) (a : Nat) : MapState :=
  match tileNbr s t a with
  | none => s
  | some u =>
    let s1 := modTile s u (fun h => h.putNbr ((a + 180) % 360) none)
    modTile s1 t (fun h => h.putNbr a none)

/-- `Hex.delete_neighbors`: remove all of the tile's links, both ways. -/
def deleteNeighbors (s : MapState) (t : Nat) : MapState :=
  angles.foldl (deleteStep t) s

/-- One angle of `Hex.join_neighbors`: if both `neighbors[angle]` and
`neighbors[angle+60]` exist, link them via
`target.new_neighbor((angle+120) % 360, join)`. -/
def joinStep (s : MapState) (t : Nat) (a : Nat) : MapState :=
  match tileNbr s t a with
  | none => s
  | some target =>
    match tileNbr s t ((a + 60) % 360) with
    | none => s
    | some join => newNeighbor s target ((a + 120) % 360) join

/-- `Hex.join_neighbors`: corner propagation over all six angles. -/
def joinNeighbors (s : MapState) (t : Nat) : MapState :=
  angles.foldl (fun st a => joinStep st t a) s

/-- The linking half of one angle of `HexMap.grow_hex`, once `self` has
been fetched. -/
def growStepLink (t : Nat) (p : HexParams) (acc : MapState × List Nat) (a : Nat)
    (ht : HexTile) : MapState × List Nat :=
  match ht.nbrAt a with
  | some _ => acc
  | none =>
    (newNeighbor { acc.1 with tiles := acc.1.tiles ++ [mkTile p] } t a
      acc.1.tiles.length,
     acc.2 ++ [acc.1.tiles.length])

/-- One angle of `HexMap.grow_hex`: create a fresh tile and link it when
the slot is empty (the tile's id is the arena index it is appended at). -/
def growStep (t : Nat) (p : HexParams) (acc : MapState × List Nat) (a : Nat) :
    MapState × List Nat :=
  match lget acc.1.tiles t with
  | none => acc
  | some ht => growStepLink t p acc a ht

/-- `HexMap.grow_hex(tile, angles, ...)`: grow fresh neighbors in the given
directions (never overwriting existing ones), run `join_neighbors` on the
tile, extend `self.hexes`, return the new tiles. -/
def growHex (s : MapState) (t : Nat) (angs : List Nat) (p : HexParams) :
    MapState × List Nat :=
  let r := angs.foldl (growStep t p) (s, [])
  let s2 := joinNeighbors r.1 t
  ({ s2 with hexes := s2.hexes ++ r.2 }, r.2)

/-- `HexMap.grow_map`: apply `grow_hex` to a snapshot (`self.hexes[:]`) of
the current tile collection. -/
def growMap (s : MapState) (angs : List Nat) (p : HexParams) :
    MapState × List Nat :=
  s.hexes.foldl (fun acc t => let r := growHex acc.1 t angs p; (r.1, acc.2 ++ r.2))
    (s, [])

/-- `HexMap.start_hex`: create a tile on the map.  (The `_base_hex` /
`_base_params` bookkeeping is inlined: every tile of the boards considered
here is a `CatanHex` made from explicit parameters.) -/
def startHex (s : MapState) (p : HexParams) : MapState × Nat :=
  let nid := s.tiles.length
  ({ s with tiles := s.tiles ++ [mkTile p], hexes := s.hexes ++ [nid] }, nid)

/-- `HexMap.surround_hex`: grow in every one of the six angles. -/
def surroundHex (s : MapState) (t : Nat) (p : HexParams) : MapState × List Nat :=
  growHex s t angles p

/-- `HexMap.surround_map`: grow the whole map in every one of the six angles. -/
def surroundMap (s : MapState) (p : HexParams) : MapState × List Nat :=
  growMap s angles p


/-- Sort key for the port ring: the build sorts by `math.atan2(tile.x, tile.y)`
descending.  `atan2(x, y)` is the polar angle of the Cartesian point `(y, x)`;
scaling both components by 2 keeps the angle, so the key point for a tile is
`(y2, 2*x)`. -/
def atanKey (s : MapState) (i : Nat) : Int × Int := (ty s i, 2 * tx s i)

/-- Coarse classification of a nonzero point's polar angle in `(-pi, pi]`:
class 0 for angles in `(-pi, 0)`, 1 for angle 0 (and the origin, where
`atan2` returns 0), 2 for `(0, pi)`, 3 for angle `pi`. -/
def angClassOf (v : Int × Int) : Nat :=
  if 0 < v.2 then 2 else if v.2 = 0 then (if v.1 < 0 then 3 else 1) else 0

/-- Exact comparison `polarAngle u > polarAngle v` for the key points:
distinct classes compare by class; within an open half plane the angle is
larger exactly when the cross product `v x u` is positive. -/
def angGtB (u v : Int × Int) : Bool :=
  if angClassOf u = angClassOf v then
    decide (0 < v.1 * u.2 - v.2 * u.1)
  else
    decide (angClassOf v < angClassOf u)

/-- Stable insertion of an id into a list sorted descending by polar angle. -/
def insDesc (key : Nat → Int × Int) (x : Nat) : List Nat → List Nat
  | [] => [x]
  | y :: ys => if angGtB (key y) (key x) then y :: insDesc key x ys else x :: y :: ys

/-- Stable descending sort by polar angle — the embedding of
`self.ports.sort(key=lambda tile: math.atan2(tile.x, tile.y), reverse=True)`. -/
def sortDesc (key : Nat → Int × Int) (l : List Nat) : List Nat :=
  l.foldr (insDesc key) []

/-- `self.ports[1::2]`: keep the elements at odd indices. -/
def oddIdx {α : Type} : List α → List α
  | [] => []
  | [_] => []
  | _ :: b :: rest => b :: oddIdx rest

/-- `CatanMap.build`, step 1: `start = self.start_hex(CatanHex)`. -/
def catanStep1 : MapState × Nat := startHex emptyState defaultParams

/-- `CatanMap.build`, step 2: `mid_loop = self.surround_hex(start)` (ring 1). -/
def catanStep2 : MapState × List Nat := surroundHex catanStep1.1 catanStep1.2 defaultParams

/-- `CatanMap.build`, step 3: `edge_hexes = self.surround_map()` (ring 2). -/
def catanStep3 : MapState × List Nat := surroundMap catanStep2.1 defaultParams

/-- `CatanMap.build`, step 4: `self.terrain = self.hexes[:]`. -/
def catanStep3m : MapState := { catanStep3.1 with terrain := catanStep3.1.hexes }

/-- `CatanMap.build`, step 5: the port ring
`self.ports = self.surround_map(hex_params={'port': True})`. -/
def catanStep4 : MapState × List Nat := surroundMap catanStep3m portParams

/-- The port candidates sorted clockwise from 12 o'clock
(`self.ports.sort(key=..., reverse=True)`). -/
def catanSortedPorts : List Nat := sortDesc (atanKey catanStep4.1) catanStep4.2

/-- The finished `CatanMap.build` state: every other port candidate is kept
(`self.ports = self.ports[1::2]`) and `self.hexes = self.terrain + self.ports`. -/
def catanBuilt : MapState :=
  { catanStep4.1 with
    ports := oddIdx catanSortedPorts,
    hexes := catanStep4.1.terrain ++ oddIdx catanSortedPorts }

/-- First angle of `(0, 60, 300)` whose neighbor exists and is not a port
(the upward scan of `arrange_columns`). -/
def upNext (s : MapState) (cur : Nat) : Option Nat :=
  match tileNbr s cur 0 with
  | some h => if tilePort s h then
      (match tileNbr s cur 60 with
       | some h2 => if tilePort s h2 then
           (match tileNbr s cur 300 with
            | some h3 => if tilePort s h3 then none else some h3
            | none => none)
         else some h2
       | none =>
         match tileNbr s cur 300 with
         | some h3 => if tilePort s h3 then none else some h3
         | none => none)
    else some h
  | none =>
    match tileNbr s cur 60 with
    | some h2 => if tilePort s h2 then
        (match tileNbr s cur 300 with
         | some h3 => if tilePort s h3 then none else some h3
         | none => none)
      else some h2
    | none =>
      match tileNbr s cur 300 with
      | some h3 => if tilePort s h3 then none else some h3
      | none => none

/-- The `while True` climb to the top-most non-port hex. -/
def findTop (s : MapState) : Nat → Nat → Nat
  | 0, cur => cur
  | f + 1, cur =>
    match upNext s cur with
    | none => cur
    | some h => findTop s f h

/-- The side scan of `arrange_columns`: keep extending `right` along angle
120 and `left` along angle 240 until neither side grows; each round appends
the right find and then the left find to `toppers`. -/
def sideLoop (s : MapState) : Nat → Nat → Nat → List Nat → List Nat
  | 0, _, _, tp => tp
  | f + 1, r, l, tp =>
    match tileNbr s r 120, tileNbr s l 240 with
    | some r', some l' => sideLoop s f r' l' (tp ++ [r', l'])
    | some r', none => sideLoop s f r' l (tp ++ [r'])
    | none, some l' => sideLoop s f r l' (tp ++ [l'])
    | none, none => tp

/-- Walk straight down (angle 180) from a topper through non-port hexes. -/
def descend (s : MapState) : Nat → Nat → List Nat
  | 0, _ => []
  | f + 1, cur =>
    match tileNbr s cur 180 with
    | none => []
    | some lo => if tilePort s lo then [] else lo :: descend s f lo

/-- `CatanMap.arrange_columns`.  A missing side neighbor of the top hex
would be a Python `AttributeError` (`None.neighbors`); that is the `none`
result. -/
def arrangeColumns (s : MapState) : Option (List Nat) :=
  match s.hexes with
  | [] => none
  | h0 :: _ =>
    let top := findTop s 100 h0
    match tileNbr s top 240, tileNbr s top 120 with
    | some l0, some r0 =>
      let toppers := sideLoop s 100 r0 l0 [top, r0, l0]
      some (toppers.foldl (fun acc tp => acc ++ [tp] ++ descend s 100 tp) [])
    | _, _ => none

/-- First angle of `(180, 120, 240)` whose neighbor exists and is not a
port (the downward scan of `arrange_spiral`). -/
def downNext (s : MapState) (cur : Nat) : Option Nat :=
  match tileNbr s cur 180 with
  | some h => if tilePort s h then
      (match tileNbr s cur 120 with
       | some h2 => if tilePort s h2 then
           (match tileNbr s cur 240 with
            | some h3 => if tilePort s h3 then none else some h3
            | none => none)
         else some h2
       | none =>
         match tileNbr s cur 240 with
         | some h3 => if tilePort s h3 then none else some h3
         | none => none)
    else some h
  | none =>
    match tileNbr s cur 120 with
    | some h2 => if tilePort s h2 then
        (match tileNbr s cur 240 with
         | some h3 => if tilePort s h3 then none else some h3
         | none => none)
      else some h2
    | none =>
      match tileNbr s cur 240 with
      | some h3 => if tilePort s h3 then none else some h3
      | none => none

/-- The `while True` descent to the bottom-most non-port hex. -/
def findBottom (s : MapState) : Nat → Nat → Nat
  | 0, cur => cur
  | f + 1, cur =>
    match downNext s cur with
    | none => cur
    | some h => findBottom s f h

/-- A spiral step target is valid when it exists, is unvisited and is not a
port. -/
def validTarget (s : MapState) (visited : List Nat) : Option Nat → Bool
  | none => false
  | some u => !(visited.contains u) && !(tilePort s u)

/-- The inner rotation of `arrange_spiral`: try the current facing angle,
turning by -60 degrees on failure; after six failed directions the Python
code raises (`Caught in spiral`), which is the `none` result. -/
def nextSpiralAngle (s : MapState) (visited : List Nat) (cur : Nat) :
    Nat → Nat → Option Nat
  | 0, _ => none
  | t + 1, a =>
    if validTarget s visited (tileNbr s cur a) then some a
    else nextSpiralAngle s visited cur t ((a + 300) % 360)

/-- The outer loop of `arrange_spiral`: extend the spiral until its length
reaches the terrain count `n`.  `acc` always ends with the current tile
`cur`; `a` is the current facing angle. -/
def spiralLoop (s : MapState) (n : Nat) : Nat → List Nat → Nat → Nat → Option (List Nat)
  | 0, acc, _, _ => if acc.length < n then none else some acc
  | f + 1, acc, cur, a =>
    if acc.length < n then
      match nextSpiralAngle s acc cur 6 a with
      | none => none
      | some a' =>
        match tileNbr s cur a' with
        | none => none
        | some u => spiralLoop s n f (acc ++ [u]) u a'
    else some acc

/-- `CatanMap.arrange_spiral`: find the bottom-most non-port hex starting
from `self.hexes[0]`, then spiral counter-clockwise (initial facing angle
60) until every terrain tile is visited. -/
def arrangeSpiral (s : MapState) : Option (List Nat) :=
  match s.hexes with
  | [] => none
  | h0 :: _ =>
    let b := findBottom s 100 h0
    spiralLoop s s.terrain.length s.terrain.length [b] b 60

/-- Stable ascending insertion by tile id (`inter.sort(key=lambda t: t.id)`;
ids are the arena indices). -/
def insAsc (x : Nat) : List Nat → List Nat
  | [] => [x]
  | y :: ys => if y ≤ x then y :: insAsc x ys else x :: y :: ys

/-- Ascending sort by tile id. -/
def sortAsc (l : List Nat) : List Nat := l.foldr insAsc []

/-- The group contributed by terrain tile `t` at angle `turn`:
`{t} ∪ {neighbors[turn] if present and non-port} ∪ {neighbors[turn+60] if present and non-port}`,
sorted by id. -/
def interAt (s : MapState) (t : Nat) (turn : Nat) : List Nat :=
  let l1 := match tileNbr s t turn with
    | some u => if tilePort s u then [] else [u]
    | none => []
  let l2 := match tileNbr s t ((60 + turn) % 360) with
    | some u => if tilePort s u then [] else [u]
    | none => []
  sortAsc ([t] ++ l1 ++ l2)

/-- `CatanMap.arrange_intersections`: the deduplicating set of all such
groups, represented as a duplicate-free list in first-insertion order. -/
def arrangeIntersections (s : MapState) : List (List Nat) :=
  s.terrain.foldl
    (fun acc t =>
      angles.foldl
        (fun acc2 turn =>
          let g := interAt s t turn
          if acc2.contains g then acc2 else acc2 ++ [g])
        acc)
    []

/-- The fully arranged standard board: `CatanMap.__init__` runs `build`
and then `arrange` (columns, spiral, intersections).  The `_explore`
bounding-box pass touches nothing the claims mention and is not modelled. -/
def catanMap : MapState :=
  { catanBuilt with
    columns := (arrangeColumns catanBuilt).getD [],
    spiral := (arrangeSpiral catanBuilt).getD [],
    inters := arrangeIntersections catanBuilt }

/-- `CatanMap.set_terrain` after the ordering of the terrain names has been
fixed: write them onto the columns ordering (`zip` truncates like Python's). -/
def setTerrain (s : MapState) (rezes : List String) : MapState :=
  (s.columns.zip rezes).foldl
    (fun st tr => modTile st tr.1 (fun h => { h with terr := tr.2 })) s

/-- The loop body of `CatanMap.set_numbers`: walk the spiral; deserts get
number 0, every other tile consumes the next number; either iterator
running out stops the loop (the `StopIteration` break). -/
def setNumbersGo : List Nat → List Int → MapState → MapState
  | [], _, st => st
  | t :: ts, ns, st =>
    if tileTerr st t = "DSRT" then setNumbersGo ts ns (modTile st t (fun h => setNum h 0))
    else
      match ns with
      | [] => st
      | n :: ns' => setNumbersGo ts ns' (modTile st t (fun h => setNum h n))

/-- `CatanMap.set_numbers` after the ordering of the numbers has been fixed. -/
def setNumbers (s : MapState) (nums : List Int) : MapState :=
  setNumbersGo s.spiral nums s

/-- `CatanMap.set_ports` after the ordering of the port names has been
fixed: write them onto the selected port tiles. -/
def setPorts (s : MapState) (portNames : List String) : MapState :=
  (s.ports.zip portNames).foldl
    (fun st tp => modTile st tp.1 (fun h => { h with terr := tp.2 })) s

/-- One assignment pass of `CatanMap.layout`: `set_terrain`, `set_numbers`,
`set_ports`, in that order.  The orderings for trial `k` are supplied by
the three functions (a `shuffle` mode draws a fresh permutation each
trial; a fixed mode is a constant function). -/
def layoutPass (tL : Nat → List String) (nL : Nat → List Int)
    (pL : Nat → List String) (k : Nat) (s : MapState) : MapState :=
  setPorts (setNumbers (setTerrain s (tL k)) (nL k)) (pL k)

/-- The retry loop of `CatanMap.layout`: run a pass, accept when every
validator passes, otherwise bump `tries` and retry.  The second component
of the result counts the completed passes.  Fuel bounds the unbounded
Python loop; `none` means the fuel ran out before acceptance. -/
def layoutGo (tL : Nat → List String) (nL : Nat → List Int)
    (pL : Nat → List String) (validate : List (MapState → Bool)) :
    Nat → Nat → MapState → Option (MapState × Nat)
  | 0, _, _ => none
  | f + 1, k, s =>
    let s1 := layoutPass tL nL pL k s
    if validate.all (fun v => v s1) then some (s1, k + 1)
    else layoutGo tL nL pL validate f (k + 1) { s1 with tries := s1.tries + 1 }

/-- `CatanMap.layout`: `tries` starts at 1 when there are validators and at
0 otherwise, then the retry loop runs. -/
def layout (tL : Nat → List String) (nL : Nat → List Int)
    (pL : Nat → List String) (validate : List (MapState → Bool))
    (fuel : Nat) (s : MapState) : Option (MapState × Nat) :=
  layoutGo tL nL pL validate fuel 0
    { s with tries := if validate.isEmpty then 0 else 1 }

/-- The module constant `PORT_TO_TERR` (note the `'HILL'` value). -/
def PORT_TO_TERR (p : String) : Option String :=
  (([("BRICK", "HILL"), ("GRAIN", "FIELD"), ("ROCK", "MNTN"),
     ("SHEEP", "PSTR"), ("WOOD", "FRST")] : List (String × String))).lookup p

/-- The module constant `TERR_TO_PORT` (note the `'HILLS'` key). -/
def TERR_TO_PORT (t : String) : Option String :=
  (([("FIELD", "GRAIN"), ("FRST", "WOOD"), ("HILLS", "BRICK"),
     ("MNTN", "ROCK"), ("PSTR", "SHEEP")] : List (String × String))).lookup t

/-- `CatanMap.begin_terr`: the beginner terrain ordering (19 entries). -/
def beginTerr : List String :=
  ["FRST", "PSTR", "DSRT", "MNTN", "HILLS", "HILLS", "FRST", "FIELD", "FIELD",
   "PSTR", "HILLS", "FRST", "FRST", "MNTN", "PSTR", "PSTR", "MNTN", "FIELD",
   "FIELD"]

/-- `CatanMap.begin_port`: the beginner port ordering (9 entries). -/
def beginPort : List String :=
  ["ROCK", "ANY", "SHEEP", "ANY", "ANY", "BRICK", "WOOD", "ANY", "GRAIN"]

/-- `CatanMap.standard_num`: the standard production-number ordering
(18 entries; `begin_num`'s final `''` entry, which is not an integer, is
never consumed by a board with one desert and is not modelled). -/
def standardNum : List Int :=
  [5, 2, 6, 3, 8, 10, 9, 12, 11, 4, 8, 10, 9, 4, 5, 6, 3, 11]

/-- The standard board after one concrete layout pass (standard numbers,
beginner terrain and ports — the non-random modes). -/
def catanLaid : MapState :=
  setPorts (setNumbers (setTerrain catanMap beginTerr) standardNum) beginPort

/-- The mutual-adjacency check over the whole arena: whenever tile `i`'s
neighbor at angle `a` is `j`, tile `j`'s neighbor at `(a+180) % 360` must
be `i`. -/
def mutualCheck (s : MapState) : Bool :=
  (List.range s.tiles.length).all fun i =>
    angles.all fun a =>
      match tileNbr s i a with
      | none => true
      | some j => tileNbr s j ((a + 180) % 360) == some i

/-- The pip-consistency check: every tile of the arena satisfies
`pips = 6 - |7 - num|`. -/
def pipsCheck (s : MapState) : Bool :=
  s.tiles.all fun h => h.pips == 6 - ((7 - h.num).natAbs : Int)

/-- The link/coordinate coherence invariant: every neighbor link points
inside the arena and the linked tile's coordinates are offset from the
source's by the angle's `angle_xy` entry. -/
def invB (s : MapState) : Bool :=
  (List.range s.tiles.length).all fun i =>
    angles.all fun a =>
      match tileNbr s i a with
      | none => true
      | some j =>
        decide (j < s.tiles.length) &&
        (tx s j == tx s i + (dirXY a).1) && (ty s j == ty s i + (dirXY a).2)

/-- The coordinates of the first `m` tiles of `s'` agree with those of `s`. -/
def coordsAgree (s s' : MapState) (m : Nat) : Bool :=
  (List.range m).all fun i => (tx s' i == tx s i) && (ty s' i == ty s i)

/-- The neighbor structure of `s'` agrees with that of `s` everywhere. -/
def nbrsAgree (s s' : MapState) : Bool :=
  (List.range s.tiles.length).all fun i =>
    angles.all fun a => tileNbr s' i a == tileNbr s i a

/-- The public mutating operations of the construction and layout API, as
an explicit datatype so that statements can quantify over them. -/
inductive MOp where
  | startOp : HexParams → MOp
  | newNbrOp : Nat → Nat → Nat → MOp
  | deleteOp : Nat → MOp
  | joinOp : Nat → MOp
  | growOp : Nat → List Nat → HexParams → MOp
  | growMapOp : List Nat → HexParams → MOp
  | surroundHexOp : Nat → HexParams → MOp
  | surroundMapOp : HexParams → MOp
  | markTerrainOp : MOp
  | portSelectOp : MOp
  | setTerrOp : List String → MOp
  | setNumsOp : List Int → MOp
  | setPortsOp : List String → MOp
deriving DecidableEq, Repr

/-- Interpret one operation.  `markTerrainOp` is the `self.terrain =
self.hexes[:]` assignment of `CatanMap.build`; `portSelectOp` is its port
selection (sort the newest ring clockwise, keep every other tile, reset
`hexes` to terrain-then-ports). -/
def applyMOp (s : MapState) : MOp → MapState
  | .startOp p => (startHex s p).1
  | .newNbrOp t a u => newNeighbor s t a u
  | .deleteOp t => deleteNeighbors s t
  | .joinOp t => joinNeighbors s t
  | .growOp t angs p => (growHex s t angs p).1
  | .growMapOp angs p => (growMap s angs p).1
  | .surroundHexOp t p => (surroundHex s t p).1
  | .surroundMapOp p => (surroundMap s p).1
  | .markTerrainOp => { s with terrain := s.hexes }
  | .portSelectOp =>
    let cands := s.hexes.drop s.terrain.length
    let kept := oddIdx (sortDesc (atanKey s) cands)
    { s with ports := kept, hexes := s.terrain ++ kept }
  | .setTerrOp l => setTerrain s l
  | .setNumsOp l => setNumbers s l
  | .setPortsOp l => setPorts s l

/-- Apply a sequence of operations to the empty map. -/
def applyMOps (ops : List MOp) : MapState := ops.foldl applyMOp emptyState

/-- Clockwise-from-noon classification, written from the specification's
words rather than from `atan2`: noon (`x = 0, y < 0`) is class 0, then the
upper-right quadrant, 3 o'clock, lower-right, 6 o'clock, lower-left,
9 o'clock, upper-left.  Coordinates are `(x, y2)` with y growing downward. -/
def cwClassOf (p : Int × Int) : Nat :=
  if p.1 = 0 then (if p.2 < 0 then 0 else if p.2 = 0 then 8 else 4)
  else if 0 < p.1 then (if p.2 < 0 then 1 else if p.2 = 0 then 2 else 3)
  else (if 0 < p.2 then 5 else if p.2 = 0 then 6 else 7)

/-- Strict clockwise-from-noon comparison: smaller class first; within an
open quadrant, `u` precedes `v` when rotating clockwise from `u` reaches
`v`, i.e. when the (screen-coordinate) cross product `u x v` is positive. -/
def cwLtB (u v : Int × Int) : Bool :=
  if cwClassOf u = cwClassOf v then decide (0 < u.1 * v.2 - u.2 * v.1)
  else decide (cwClassOf u < cwClassOf v)

/-- The position of tile `i` as a point `(x, y2)`. -/
def posOf (s : MapState) (i : Nat) : Int × Int := (tx s i, ty s i)

/-- The list is strictly ordered clockwise from noon about the center. -/
def cwSorted (s : MapState) : List Nat → Bool
  | [] => true
  | [_] => true
  | a :: b :: rest => cwLtB (posOf s a) (posOf s b) && cwSorted s (b :: rest)

/-- Strictly ascending id list. -/
def ascB : List Nat → Bool
  | [] => true
  | [_] => true
  | a :: b :: r => decide (a < b) && ascB (b :: r)

/-- The intersections of the standard board. -/
def catanInters : List (List Nat) := arrangeIntersections catanBuilt

/-- The shape every intersection group of the standard board is claimed to
have (as amended): between 1 and 3 tiles, strictly ascending ids, every
member a non-port terrain tile, and all members pairwise adjacent. -/
def interShape (g : List Nat) : Bool :=
  decide (1 ≤ g.length) && decide (g.length ≤ 3) && ascB g &&
  (g.all fun t => catanBuilt.terrain.contains t && !(tilePort catanBuilt t)) &&
  (g.all fun u => g.all fun v =>
    (u == v) || (angles.any fun a => tileNbr catanBuilt u a == some v))

/-- The spiral computed for the standard board (checked below). -/
def spiralList : List Nat :=
  [14, 13, 12, 11, 10, 8, 7, 9, 18, 17, 16, 15, 4, 3, 2, 1, 6, 5, 0]

/-- An operation is coordinate safe when it is not a raw `new_neighbor`
call (which by design assigns coordinates to its argument) and any grow
angles are among the six legal angles (anything else would be a Python
`KeyError`). -/
def coordSafeB : MOp → Bool
  | .newNbrOp _ _ _ => false
  | .growOp _ angs _ => angs.all fun a => decide (a ∈ angles)
  | .growMapOp angs _ => angs.all fun a => decide (a ∈ angles)
  | _ => true

/-- Link/coordinate coherence, in propositional form: every link stays in
the arena and respects the `angle_xy` offsets. -/
def InvP (s : MapState) : Prop :=
  ∀ i a j, i < s.tiles.length → a ∈ angles → tileNbr s i a = some j →
    j < s.tiles.length ∧ tx s j = tx s i + (dirXY a).1 ∧ ty s j = ty s i + (dirXY a).2

/-- The coordinates of every tile of `s` are unchanged in `s'`. -/
def CoordsEq (s s' : MapState) : Prop :=
  ∀ j, j < s.tiles.length → tx s' j = tx s j ∧ ty s' j = ty s j

/-- Two states with identical adjacency graph and coordinates. -/
def SameGraph (s s' : MapState) : Prop :=
  s'.tiles.length = s.tiles.length ∧ (∀ i b, tileNbr s' i b = tileNbr s i b) ∧
  (∀ i, tx s' i = tx s i) ∧ (∀ i, ty s' i = ty s i)

/-- A five-operation construction-API sequence (start, then four
`grow_hex` calls) under which mutual adjacency breaks: the last grow
creates a fresh tile at the position already occupied by the unlinked
tile 2, and its corner propagation overwrites tile 0's link to tile 2. -/
def cex1 : MapState := applyMOps
  [MOp.startOp defaultParams, MOp.growOp 0 [0] defaultParams,
   MOp.growOp 0 [120] defaultParams, MOp.growOp 1 [120] defaultParams,
   MOp.growOp 3 [180] defaultParams]

/-- A two-operation start-and-grow sequence placing tile 1 at (0, -1). -/
def cex2pre : MapState :=
  applyMOps [MOp.startOp defaultParams, MOp.growOp 0 [0] defaultParams]

/-- A public `new_neighbor` call re-linking the already placed tile 1,
which reassigns its coordinates. -/
def cex2 : MapState := applyMOp cex2pre (MOp.newNbrOp 0 60 1)

/-- State 0 of the standard build trace (one state per completed
operation: the start hex, `surround_hex(start)`, the seven `grow_hex`
calls of the first `surround_map` (snapshot `[0..6]`), the `terrain`
marking, the nineteen `grow_hex` calls of the port `surround_map`
(snapshot `[0..18]`), and the port selection). -/
def tr00 : MapState := emptyState
/-- State 1 of the standard build trace. -/
def tr01 : MapState := applyMOp tr00 (MOp.startOp defaultParams)
/-- State 2 of the standard build trace. -/
def tr02 : MapState := applyMOp tr01 (MOp.growOp 0 angles defaultParams)
/-- State 3 of the standard build trace. -/
def tr03 : MapState := applyMOp tr02 (MOp.growOp 0 angles defaultParams)
/-- State 4 of the standard build trace. -/
def tr04 : MapState := applyMOp tr03 (MOp.growOp 1 angles defaultParams)
/-- State 5 of the standard build trace. -/
def tr05 : MapState := applyMOp tr04 (MOp.growOp 2 angles defaultParams)
/-- State 6 of the standard build trace. -/
def tr06 : MapState := applyMOp tr05 (MOp.growOp 3 angles defaultParams)
/-- State 7 of the standard build trace. -/
def tr07 : MapState := applyMOp tr06 (MOp.growOp 4 angles defaultParams)
/-- State 8 of the standard build trace. -/
def tr08 : MapState := applyMOp tr07 (MOp.growOp 5 angles defaultParams)
/-- State 9 of the standard build trace. -/
def tr09 : MapState := applyMOp tr08 (MOp.growOp 6 angles defaultParams)
/-- State 10 of the standard build trace. -/
def tr10 : MapState := applyMOp tr09 (MOp.markTerrainOp)
/-- State 11 of the standard build trace. -/
def tr11 : MapState := applyMOp tr10 (MOp.growOp 0 angles portParams)
/-- State 12 of the standard build trace. -/
def tr12 : MapState := applyMOp tr11 (MOp.growOp 1 angles portParams)
/-- State 13 of the standard build trace. -/
def tr13 : MapState := applyMOp tr12 (MOp.growOp 2 angles portParams)
/-- State 14 of the standard build trace. -/
def tr14 : MapState := applyMOp tr13 (MOp.growOp 3 angles portParams)
/-- State 15 of the standard build trace. -/
def tr15 : MapState := applyMOp tr14 (MOp.growOp 4 angles portParams)
/-- State 16 of the standard build trace. -/
def tr16 : MapState := applyMOp tr15 (MOp.growOp 5 angles portParams)
/-- State 17 of the standard build trace. -/
def tr17 : MapState := applyMOp tr16 (MOp.growOp 6 angles portParams)
/-- State 18 of the standard build trace. -/
def tr18 : MapState := applyMOp tr17 (MOp.growOp 7 angles portParams)
/-- State 19 of the standard build trace. -/
def tr19 : MapState := applyMOp tr18 (MOp.growOp 8 angles portParams)
/-- State 20 of the standard build trace. -/
def tr20 : MapState := applyMOp tr19 (MOp.growOp 9 angles portParams)
/-- State 21 of the standard build trace. -/
def tr21 : MapState := applyMOp tr20 (MOp.growOp 10 angles portParams)
/-- State 22 of the standard build trace. -/
def tr22 : MapState := applyMOp tr21 (MOp.growOp 11 angles portParams)
/-- State 23 of the standard build trace. -/
def tr23 : MapState := applyMOp tr22 (MOp.growOp 12 angles portParams)
/-- State 24 of the standard build trace. -/
def tr24 : MapState := applyMOp tr23 (MOp.growOp 13 angles portParams)
/-- State 25 of the standard build trace. -/
def tr25 : MapState := applyMOp tr24 (MOp.growOp 14 angles portParams)
/-- State 26 of the standard build trace. -/
def tr26 : MapState := applyMOp tr25 (MOp.growOp 15 angles portParams)
/-- State 27 of the standard build trace. -/
def tr27 : MapState := applyMOp tr26 (MOp.growOp 16 angles portParams)
/-- State 28 of the standard build trace. -/
def tr28 : MapState := applyMOp tr27 (MOp.growOp 17 angles portParams)
/-- State 29 of the standard build trace. -/
def tr29 : MapState := applyMOp tr28 (MOp.growOp 18 angles portParams)
/-- State 30 of the standard build trace. -/
def tr30 : MapState := applyMOp tr29 (MOp.portSelectOp)
/-- All intermediate states of the standard build, in order. -/
def buildTrace : List MapState :=
  [tr00, tr01, tr02, tr03, tr04, tr05, tr06, tr07,
   tr08, tr09, tr10, tr11, tr12, tr13, tr14, tr15,
   tr16, tr17, tr18, tr19, tr20, tr21, tr22, tr23,
   tr24, tr25, tr26, tr27, tr28, tr29, tr30]

/-- The body of `gr_criteria`, the inner validator that `good_rock`
defines: the maximum pip count over `'ROCK'` terrain must reach `n`.
(The Python factory never returns it — see `good_rock`.) -/
def gr_criteria (n : Int) (catan : MapState) : Bool :=
  decide (n ≤ catan.terrain.foldl (fun m t =>
    if tileTerr catan t = "ROCK" then max m (tget catan t).pips else m) 0)

/-- `good_rock(n)`: the Python function body defines `gr_criteria` and
then falls off the end without a `return` statement, so the call returns
`None` — not a callable validator. -/
def good_rock (n : Int) : Option (MapState → Bool) := none

/-- The body of `nd68_criteria`, the inner validator that `no_double_6_8`
defines: no terrain type may own two 5-pip tiles.  (The Python factory
never returns it — see `no_double_6_8`.) -/
def nd68_criteria (catan : MapState) : Bool :=
  (catan.terrain.foldl (fun acc t =>
    match acc with
    | none => none
    | some seen =>
      if (tget catan t).pips = 5 then
        if seen.contains (tileTerr catan t) then none
        else some (tileTerr catan t :: seen)
      else some seen) (some ([] : List String))).isSome

/-- `no_double_6_8()`: the Python function body defines `nd68_criteria`
and then falls off the end without a `return` statement, so the call
returns `None` — not a callable validator. -/
def no_double_6_8 : Option (MapState → Bool) := none

/-- `no_2_12()`: the Python function body defines `n2B_criteria` but its
`return n68_criteria` names an identifier that does not exist in scope, so
the call raises `NameError` and produces no callable. -/
def no_2_12 : Option (MapState → Bool) := none

/-- Applying the function returned by `no_terr_tri()` to a map: the inner
`nrt_criteria` takes no parameter (and references an undefined `catan`),
so the application raises `TypeError` and produces no boolean. -/
def no_terr_tri_apply (catan : MapState) : Option Bool := none

/-- The body of `mp_criteria`, the validator returned by `max_pip`: every
intersection's pip sum stays at or under `n`. -/
def mp_criteria (n : Int) (catan : MapState) : Bool :=
  catan.inters.all fun settle =>
    decide (settle.foldl (fun acc t => acc + (tget catan t).pips) 0 ≤ n)

/-- `max_pip(n)` does return its inner validator. -/
def max_pip (n : Int) : Option (MapState → Bool) := some (mp_criteria n)

/-- Updating an arena slot keeps the arena length. -/
theorem lmod_length {α : Type} (l : List α) (i : Nat) (f : α → α) :
    (lmod l i f).length = l.length := by
  induction l generalizing i with
  | nil => rfl
  | cons t ts ih =>
    cases i with
    | zero => rfl
    | succ n => simpa [lmod] using ih n

/-- Reading after an arena update: the updated slot is mapped, the rest is
unchanged. -/
theorem lget_lmod {α : Type} (l : List α) (i : Nat) (f : α → α) (j : Nat) :
    lget (lmod l i f) j = if i = j then (lget l j).map f else lget l j := by
  induction l generalizing i j with
  | nil => simp [lmod, lget]
  | cons t ts ih =>
    cases i with
    | zero => cases j with
      | zero => simp [lmod, lget]
      | succ m => simp [lmod, lget]
    | succ n =>
      cases j with
      | zero => simp [lmod, lget]
      | succ m =>
        simp only [lmod, lget, ih n m]
        by_cases h : n = m
        · simp [h]
        · simp [h, fun hc => h (Nat.succ_injective hc)]

/-- Reading an appended arena. -/
theorem lget_append {α : Type} (l m : List α) (j : Nat) :
    lget (l ++ m) j = if j < l.length then lget l j else lget m (j - l.length) := by
  induction l generalizing j with
  | nil => simp [lget]
  | cons t ts ih =>
    cases j with
    | zero => simp [lget]
    | succ n => simpa [lget, Nat.succ_lt_succ_iff] using ih n

/-- An index is in range exactly when the read succeeds. -/
theorem lget_isSome_iff {α : Type} (l : List α) (j : Nat) :
    (lget l j).isSome = true ↔ j < l.length := by
  induction l generalizing j with
  | nil => simp [lget]
  | cons t ts ih =>
    cases j with
    | zero => simp [lget]
    | succ n => simpa [lget, Nat.succ_lt_succ_iff] using ih n

/-- In-range reads give values. -/
theorem lget_lt {α : Type} (l : List α) (j : Nat) (h : j < l.length) :
    ∃ v, lget l j = some v := by
  have := (lget_isSome_iff l j).2 h
  cases hv : lget l j with
  | none => rw [hv] at this; cases this
  | some v => exact ⟨v, rfl⟩

/-- Successful reads are in range. -/
theorem lget_lt_of_some {α : Type} {l : List α} {j : Nat} {v : α}
    (h : lget l j = some v) : j < l.length := by
  have : (lget l j).isSome = true := by rw [h]; rfl
  exact (lget_isSome_iff l j).1 this

/-- Membership in the angle list, unfolded. -/
theorem mem_angles {a : Nat} (h : a ∈ angles) :
    a = 0 ∨ a = 60 ∨ a = 120 ∨ a = 180 ∨ a = 240 ∨ a = 300 := by
  simpa [angles] using h

/-- Reading the slot just written. -/
theorem nbrs_put_get_self (v : Nbrs) {a : Nat} (o : Option Nat) (ha : a ∈ angles) :
    (v.put a o).get a = o := by
  rcases mem_angles ha with rfl | rfl | rfl | rfl | rfl | rfl <;> rfl

/-- Reading a slot other than the one written. -/
theorem nbrs_put_get_ne (v : Nbrs) {a b : Nat} (o : Option Nat)
    (ha : a ∈ angles) (hb : b ∈ angles) (hne : a ≠ b) :
    (v.put a o).get b = v.get b := by
  rcases mem_angles ha with rfl | rfl | rfl | rfl | rfl | rfl <;>
    rcases mem_angles hb with rfl | rfl | rfl | rfl | rfl | rfl <;>
      first
      | rfl
      | exact absurd rfl hne

/-- The opposite of a legal angle is legal. -/
theorem opp_mem {a : Nat} (ha : a ∈ angles) : (a + 180) % 360 ∈ angles := by
  rcases mem_angles ha with rfl | rfl | rfl | rfl | rfl | rfl <;> decide

/-- Rotating a legal angle by 60 keeps it legal. -/
theorem rot60_mem {a : Nat} (ha : a ∈ angles) : (a + 60) % 360 ∈ angles := by
  rcases mem_angles ha with rfl | rfl | rfl | rfl | rfl | rfl <;> decide

/-- Rotating a legal angle by 120 keeps it legal. -/
theorem rot120_mem {a : Nat} (ha : a ∈ angles) : (a + 120) % 360 ∈ angles := by
  rcases mem_angles ha with rfl | rfl | rfl | rfl | rfl | rfl <;> decide

/-- The `angle_xy` entry of the opposite angle is the negation. -/
theorem dir_opp {a : Nat} (ha : a ∈ angles) :
    dirXY ((a + 180) % 360) = (-(dirXY a).1, -(dirXY a).2) := by
  rcases mem_angles ha with rfl | rfl | rfl | rfl | rfl | rfl <;> rfl

/-- The hexagonal offset identity behind corner propagation:
`angle_xy[a] + angle_xy[a+120] = angle_xy[a+60]`. -/
theorem dir_sum {a : Nat} (ha : a ∈ angles) :
    (dirXY a).1 + (dirXY ((a + 120) % 360)).1 = (dirXY ((a + 60) % 360)).1 ∧
    (dirXY a).2 + (dirXY ((a + 120) % 360)).2 = (dirXY ((a + 60) % 360)).2 := by
  rcases mem_angles ha with rfl | rfl | rfl | rfl | rfl | rfl <;> exact ⟨rfl, rfl⟩

/-- No legal angle has a zero offset. -/
theorem dir_ne_zero {a : Nat} (ha : a ∈ angles) :
    ¬((dirXY a).1 = 0 ∧ (dirXY a).2 = 0) := by
  rcases mem_angles ha with rfl | rfl | rfl | rfl | rfl | rfl <;> decide

/-- Slot writes keep the x coordinate. -/
theorem putNbr_x (h : HexTile) (a : Nat) (o : Option Nat) : (h.putNbr a o).x = h.x := rfl

/-- Slot writes keep the y coordinate. -/
theorem putNbr_y (h : HexTile) (a : Nat) (o : Option Nat) : (h.putNbr a o).y2 = h.y2 := rfl

/-- Arena updates keep the arena length. -/
theorem modTile_len (s : MapState) (i : Nat) (f : HexTile → HexTile) :
    (modTile s i f).tiles.length = s.tiles.length := lmod_length s.tiles i f

/-- Arena updates do not touch other tiles. -/
theorem lget_modTile_ne (s : MapState) (i : Nat) (f : HexTile → HexTile) (j : Nat)
    (h : i ≠ j) : lget (modTile s i f).tiles j = lget s.tiles j := by
  simp [modTile, lget_lmod, h]

/-- Arena updates map the addressed tile. -/
theorem lget_modTile_self (s : MapState) (i : Nat) (f : HexTile → HexTile) {h : HexTile}
    (hl : lget s.tiles i = some h) : lget (modTile s i f).tiles i = some (f h) := by
  simp [modTile, lget_lmod, hl]

/-- The length of the arena is unchanged by `new_neighbor`. -/
theorem nn_len (s : MapState) (t a u : Nat) :
    (newNeighbor s t a u).tiles.length = s.tiles.length := by
  unfold newNeighbor
  cases lget s.tiles t with
  | none => rfl
  | some ht =>
    cases lget s.tiles u with
    | none => rfl
    | some hw => simp [modTile_len]

/-- `new_neighbor` rewrites `self`'s slot at the link angle. -/
theorem nn_lget_t {s : MapState} {t u : Nat} (a : Nat) {ht hu : HexTile}
    (hne : t ≠ u) (hht : lget s.tiles t = some ht) (hhu : lget s.tiles u = some hu) :
    lget (newNeighbor s t a u).tiles t = some (ht.putNbr a (some u)) := by
  unfold newNeighbor
  rw [hht, hhu]
  have h1 : lget (modTile s t (fun h => h.putNbr a (some u))).tiles t =
      some (ht.putNbr a (some u)) := lget_modTile_self _ _ _ hht
  rw [lget_modTile_ne _ u _ t (fun hc => hne hc.symm),
    lget_modTile_ne _ u _ t (fun hc => hne hc.symm), h1]

/-- `new_neighbor` rewrites the neighbor's opposite slot and assigns its
coordinates from `self`'s. -/
theorem nn_lget_u {s : MapState} {t u : Nat} (a : Nat) {ht hu : HexTile}
    (hne : t ≠ u) (hht : lget s.tiles t = some ht) (hhu : lget s.tiles u = some hu) :
    lget (newNeighbor s t a u).tiles u =
      some { hu.putNbr ((a + 180) % 360) (some t) with
             x := ht.x + (dirXY a).1, y2 := ht.y2 + (dirXY a).2 } := by
  unfold newNeighbor
  rw [hht, hhu]
  have h0 : lget (modTile s t (fun h => h.putNbr a (some u))).tiles u = some hu :=
    (lget_modTile_ne _ t _ u hne).trans hhu
  have h1 := lget_modTile_self (modTile s t (fun h => h.putNbr a (some u))) u
    (fun h => h.putNbr ((a + 180) % 360) (some t)) h0
  have h2 := lget_modTile_self _ u
    (fun h => { h with x := ht.x + (dirXY a).1, y2 := ht.y2 + (dirXY a).2 }) h1
  exact h2

/-- `new_neighbor` does not touch third tiles. -/
theorem nn_lget_other {s : MapState} {t u j : Nat} (a : Nat)
    (h1 : j ≠ t) (h2 : j ≠ u) :
    lget (newNeighbor s t a u).tiles j = lget s.tiles j := by
  unfold newNeighbor
  cases hht : lget s.tiles t with
  | none => rfl
  | some ht =>
    cases hhu : lget s.tiles u with
    | none => rfl
    | some hw =>
      rw [lget_modTile_ne _ u _ j (fun hc => h2 hc.symm),
        lget_modTile_ne _ u _ j (fun hc => h2 hc.symm),
        lget_modTile_ne _ t _ j (fun hc => h1 hc.symm)]

/-- A tile read under a known arena entry. -/
theorem tx_of_lget {s : MapState} {i : Nat} {h : HexTile}
    (hl : lget s.tiles i = some h) : tx s i = h.x := by simp [tx, tget, hl]

/-- A tile read under a known arena entry. -/
theorem ty_of_lget {s : MapState} {i : Nat} {h : HexTile}
    (hl : lget s.tiles i = some h) : ty s i = h.y2 := by simp [ty, tget, hl]

/-- A neighbor read under a known arena entry. -/
theorem nbr_of_lget {s : MapState} {i : Nat} {h : HexTile}
    (hl : lget s.tiles i = some h) (a : Nat) : tileNbr s i a = h.nbrAt a := by
  simp [tileNbr, tget, hl]

/-- `new_neighbor` is the identity when `self` is missing. -/
theorem nn_none_t {s : MapState} {t : Nat} (a u : Nat)
    (h : lget s.tiles t = none) : newNeighbor s t a u = s := by
  unfold newNeighbor; rw [h]

/-- `new_neighbor` is the identity when the neighbor is missing. -/
theorem nn_none_u {s : MapState} {t u : Nat} (a : Nat) {ht : HexTile}
    (h1 : lget s.tiles t = some ht) (h2 : lget s.tiles u = none) :
    newNeighbor s t a u = s := by
  unfold newNeighbor; rw [h1, h2]

/-- Equal arena entries give equal coordinate reads. -/
theorem tx_congr {s s' : MapState} {j : Nat}
    (h : lget s'.tiles j = lget s.tiles j) : tx s' j = tx s j := by
  simp [tx, tget, h]

/-- Equal arena entries give equal coordinate reads. -/
theorem ty_congr {s s' : MapState} {j : Nat}
    (h : lget s'.tiles j = lget s.tiles j) : ty s' j = ty s j := by
  simp [ty, tget, h]

/-- Equal arena entries give equal neighbor reads. -/
theorem nbr_congr {s s' : MapState} {j : Nat}
    (h : lget s'.tiles j = lget s.tiles j) (a : Nat) :
    tileNbr s' j a = tileNbr s j a := by
  simp [tileNbr, tget, h]

/-- `new_neighbor` only writes coordinates of its `neighbor` argument. -/
theorem nn_coords_ne_u (s : MapState) (t a u j : Nat) (hj : j ≠ u) :
    tx (newNeighbor s t a u) j = tx s j ∧ ty (newNeighbor s t a u) j = ty s j := by
  cases hht : lget s.tiles t with
  | none => rw [nn_none_t a u hht]; exact ⟨rfl, rfl⟩
  | some ht =>
    cases hhu : lget s.tiles u with
    | none => rw [nn_none_u a hht hhu]; exact ⟨rfl, rfl⟩
    | some hu =>
      by_cases hjt : j = t
      · subst hjt
        have hlt := nn_lget_t a hj hht hhu
        rw [tx_of_lget hlt, tx_of_lget hht, putNbr_x,
          ty_of_lget hlt, ty_of_lget hht, putNbr_y]
        exact ⟨rfl, rfl⟩
      · have heq := nn_lget_other (s := s) (t := t) (u := u) a hjt hj
        exact ⟨tx_congr heq, ty_congr heq⟩

/-- After `new_neighbor`, `self`'s slot at the link angle holds the neighbor. -/
theorem nn_nbr_t_self {s : MapState} {t u : Nat} {ht hu : HexTile} {a : Nat}
    (hne : t ≠ u) (hht : lget s.tiles t = some ht) (hhu : lget s.tiles u = some hu)
    (ha : a ∈ angles) :
    tileNbr (newNeighbor s t a u) t a = some u := by
  rw [nbr_of_lget (nn_lget_t a hne hht hhu) a]
  simp [HexTile.nbrAt, HexTile.putNbr, nbrs_put_get_self _ _ ha]

/-- After `new_neighbor`, the neighbor's opposite slot holds `self`. -/
theorem nn_nbr_u_opp {s : MapState} {t u : Nat} {ht hu : HexTile} {a : Nat}
    (hne : t ≠ u) (hht : lget s.tiles t = some ht) (hhu : lget s.tiles u = some hu)
    (ha : a ∈ angles) :
    tileNbr (newNeighbor s t a u) u ((a + 180) % 360) = some t := by
  rw [nbr_of_lget (nn_lget_u a hne hht hhu) _]
  simp [HexTile.nbrAt, HexTile.putNbr, nbrs_put_get_self _ _ (opp_mem ha)]

/-- `new_neighbor` leaves every other slot of every tile unchanged. -/
theorem nn_nbr_other_slots {s : MapState} {t u : Nat} {ht hu : HexTile} {a : Nat}
    (hne : t ≠ u) (hht : lget s.tiles t = some ht) (hhu : lget s.tiles u = some hu)
    (ha : a ∈ angles) (i b : Nat) (hb : b ∈ angles)
    (h1 : ¬(i = t ∧ b = a)) (h2 : ¬(i = u ∧ b = (a + 180) % 360)) :
    tileNbr (newNeighbor s t a u) i b = tileNbr s i b := by
  by_cases hit : i = t
  · subst hit
    have hba : b ≠ a := fun hc => h1 ⟨rfl, hc⟩
    rw [nbr_of_lget (nn_lget_t a hne hht hhu) b, nbr_of_lget hht b]
    simp [HexTile.nbrAt, HexTile.putNbr,
      nbrs_put_get_ne _ _ ha hb (fun hc => hba hc.symm)]
  · by_cases hiu : i = u
    · subst hiu
      have hbo : b ≠ (a + 180) % 360 := fun hc => h2 ⟨rfl, hc⟩
      rw [nbr_of_lget (nn_lget_u a hne hht hhu) b, nbr_of_lget hhu b]
      simp [HexTile.nbrAt, HexTile.putNbr,
        nbrs_put_get_ne _ _ (opp_mem ha) hb (fun hc => hbo hc.symm)]
    · exact nbr_congr (nn_lget_other (s := s) (t := t) (u := u) a hit hiu) b

/-- The value-preserving case of `new_neighbor`: if the neighbor already
sits at the offset position, coherence is preserved and no coordinate
changes value. -/
theorem nn_inv {s : MapState} {t a u : Nat} {ht hu : HexTile}
    (hinv : InvP s) (hht : lget s.tiles t = some ht) (hhu : lget s.tiles u = some hu)
    (ha : a ∈ angles)
    (hx : hu.x = ht.x + (dirXY a).1) (hy : hu.y2 = ht.y2 + (dirXY a).2) :
    InvP (newNeighbor s t a u) ∧
      (∀ j, tx (newNeighbor s t a u) j = tx s j ∧ ty (newNeighbor s t a u) j = ty s j) := by
  have hne : t ≠ u := by
    intro hc
    subst hc
    rw [hht] at hhu
    injection hhu with hv
    subst hv
    exact dir_ne_zero ha ⟨by omega, by omega⟩
  have hcoords : ∀ j, tx (newNeighbor s t a u) j = tx s j ∧
      ty (newNeighbor s t a u) j = ty s j := by
    intro j
    by_cases hju : j = u
    · subst hju
      rw [tx_of_lget (nn_lget_u a hne hht hhu), ty_of_lget (nn_lget_u a hne hht hhu),
        tx_of_lget hhu, ty_of_lget hhu]
      exact ⟨by rw [hx], by rw [hy]⟩
    · exact nn_coords_ne_u s t a u j hju
  refine ⟨?_, hcoords⟩
  intro i b j hi hb hnbr
  rw [nn_len] at hi
  have hut : u < s.tiles.length := lget_lt_of_some hhu
  have htt : t < s.tiles.length := lget_lt_of_some hht
  by_cases hcase1 : i = t ∧ b = a
  · obtain ⟨hit, hba⟩ := hcase1
    rw [hit, hba, nn_nbr_t_self hne hht hhu ha] at hnbr
    injection hnbr with hj
    rw [← hj, hit, hba]
    refine ⟨by rw [nn_len]; exact hut, ?_, ?_⟩
    · rw [(hcoords u).1, (hcoords t).1, tx_of_lget hhu, tx_of_lget hht, hx]
    · rw [(hcoords u).2, (hcoords t).2, ty_of_lget hhu, ty_of_lget hht, hy]
  · by_cases hcase2 : i = u ∧ b = (a + 180) % 360
    · obtain ⟨hiu, hbo⟩ := hcase2
      rw [hiu, hbo, nn_nbr_u_opp hne hht hhu ha] at hnbr
      injection hnbr with hj
      rw [← hj, hiu, hbo]
      refine ⟨by rw [nn_len]; exact htt, ?_, ?_⟩
      · rw [(hcoords t).1, (hcoords u).1, tx_of_lget hhu, tx_of_lget hht, hx,
          (dir_opp ha)]
        omega
      · rw [(hcoords t).2, (hcoords u).2, ty_of_lget hhu, ty_of_lget hht, hy,
          (dir_opp ha)]
        omega
    · rw [nn_nbr_other_slots hne hht hhu ha i b hb hcase1 hcase2] at hnbr
      obtain ⟨hjlt, hjx, hjy⟩ := hinv i b j hi hb hnbr
      refine ⟨by rw [nn_len]; exact hjlt, ?_, ?_⟩
      · rw [(hcoords j).1, (hcoords i).1]; exact hjx
      · rw [(hcoords j).2, (hcoords i).2]; exact hjy

/-- The fresh-link case of `new_neighbor`: linking a tile that has no
links and that nothing links to preserves coherence (its coordinates are
assigned by the call). -/
theorem nn_fresh_inv {s : MapState} {t a u : Nat} {ht hu : HexTile}
    (hinv : InvP s) (hht : lget s.tiles t = some ht) (hhu : lget s.tiles u = some hu)
    (ha : a ∈ angles) (hne : t ≠ u)
    (hunb : ∀ b, hu.nbrAt b = none)
    (hnou : ∀ i b j, i < s.tiles.length → b ∈ angles → tileNbr s i b = some j → j ≠ u) :
    InvP (newNeighbor s t a u) := by
  have hut : u < s.tiles.length := lget_lt_of_some hhu
  have htt : t < s.tiles.length := lget_lt_of_some hht
  have hxu : tx (newNeighbor s t a u) u = ht.x + (dirXY a).1 := by
    rw [tx_of_lget (nn_lget_u a hne hht hhu)]
  have hyu : ty (newNeighbor s t a u) u = ht.y2 + (dirXY a).2 := by
    rw [ty_of_lget (nn_lget_u a hne hht hhu)]
  have hxt : tx (newNeighbor s t a u) t = ht.x := by
    rw [(nn_coords_ne_u s t a u t hne).1, tx_of_lget hht]
  have hyt : ty (newNeighbor s t a u) t = ht.y2 := by
    rw [(nn_coords_ne_u s t a u t hne).2, ty_of_lget hht]
  intro i b j hi hb hnbr
  rw [nn_len] at hi
  by_cases hcase1 : i = t ∧ b = a
  · obtain ⟨hit, hba⟩ := hcase1
    rw [hit, hba, nn_nbr_t_self hne hht hhu ha] at hnbr
    injection hnbr with hj
    rw [← hj, hit, hba]
    refine ⟨by rw [nn_len]; exact hut, ?_, ?_⟩
    · rw [hxu, hxt]
    · rw [hyu, hyt]
  · by_cases hcase2 : i = u ∧ b = (a + 180) % 360
    · obtain ⟨hiu, hbo⟩ := hcase2
      rw [hiu, hbo, nn_nbr_u_opp hne hht hhu ha] at hnbr
      injection hnbr with hj
      rw [← hj, hiu, hbo]
      refine ⟨by rw [nn_len]; exact htt, ?_, ?_⟩
      · rw [hxt, hxu, (dir_opp ha)]
        omega
      · rw [hyt, hyu, (dir_opp ha)]
        omega
    · rw [nn_nbr_other_slots hne hht hhu ha i b hb hcase1 hcase2] at hnbr
      by_cases hiu : i = u
      · rw [hiu, nbr_of_lget hhu b, hunb b] at hnbr
        cases hnbr
      · obtain ⟨hjlt, hjx, hjy⟩ := hinv i b j hi hb hnbr
        have hju : j ≠ u := hnou i b j hi hb hnbr
        refine ⟨by rw [nn_len]; exact hjlt, ?_, ?_⟩
        · rw [(nn_coords_ne_u s t a u j hju).1, (nn_coords_ne_u s t a u i hiu).1]
          exact hjx
        · rw [(nn_coords_ne_u s t a u j hju).2, (nn_coords_ne_u s t a u i hiu).2]
          exact hjy

/-- The empty neighbor dict reads `none` at every angle. -/
theorem empty_get (a : Nat) : Nbrs.empty.get a = none := by
  unfold Nbrs.get
  split <;> rfl

/-- A tile id with a neighbor is in the arena. -/
theorem lt_of_nbr_some {s : MapState} {t a : Nat} {u : Nat}
    (h : tileNbr s t a = some u) : t < s.tiles.length := by
  by_contra hc
  cases hv : lget s.tiles t with
  | some v => exact hc (lget_lt_of_some hv)
  | none =>
    rw [tileNbr, tget, hv] at h
    simp only [Option.getD_none] at h
    rw [show defaultTile.nbrAt a = none from empty_get a] at h
    cases h

/-- One corner-propagation step preserves coherence, coordinates, and the
arena length. -/
theorem joinStep_inv (s : MapState) (t : Nat) {a : Nat} (hinv : InvP s) (ha : a ∈ angles) :
    InvP (joinStep s t a) ∧
      (∀ j, tx (joinStep s t a) j = tx s j ∧ ty (joinStep s t a) j = ty s j) ∧
      (joinStep s t a).tiles.length = s.tiles.length := by
  unfold joinStep
  cases h1 : tileNbr s t a with
  | none => exact ⟨hinv, fun j => ⟨rfl, rfl⟩, rfl⟩
  | some target =>
    cases h2 : tileNbr s t ((a + 60) % 360) with
    | none => exact ⟨hinv, fun j => ⟨rfl, rfl⟩, rfl⟩
    | some join =>
      have htlen : t < s.tiles.length := lt_of_nbr_some h1
      obtain ⟨hlt1, hx1, hy1⟩ := hinv t a target htlen ha h1
      obtain ⟨hlt2, hx2, hy2⟩ := hinv t _ join htlen (rot60_mem ha) h2
      obtain ⟨vt, hvt⟩ := lget_lt s.tiles target hlt1
      obtain ⟨vj, hvj⟩ := lget_lt s.tiles join hlt2
      have hx : vj.x = vt.x + (dirXY ((a + 120) % 360)).1 := by
        have hs := (dir_sum ha).1
        rw [tx_of_lget hvt] at hx1
        rw [tx_of_lget hvj] at hx2
        omega
      have hy : vj.y2 = vt.y2 + (dirXY ((a + 120) % 360)).2 := by
        have hs := (dir_sum ha).2
        rw [ty_of_lget hvt] at hy1
        rw [ty_of_lget hvj] at hy2
        omega
      obtain ⟨g1, g2⟩ := nn_inv hinv hvt hvj (rot120_mem ha) hx hy
      exact ⟨g1, g2, nn_len s target _ join⟩

/-- Corner propagation over any list of legal angles preserves coherence,
coordinates, and the arena length. -/
theorem foldJoin_inv (t : Nat) (l : List Nat) (hl : ∀ a ∈ l, a ∈ angles)
    (s : MapState) (hinv : InvP s) :
    InvP (l.foldl (fun st a => joinStep st t a) s) ∧
      (∀ j, tx (l.foldl (fun st a => joinStep st t a) s) j = tx s j ∧
        ty (l.foldl (fun st a => joinStep st t a) s) j = ty s j) ∧
      (l.foldl (fun st a => joinStep st t a) s).tiles.length = s.tiles.length := by
  induction l generalizing s with
  | nil => exact ⟨hinv, fun j => ⟨rfl, rfl⟩, rfl⟩
  | cons a rest ih =>
    have ha := hl a (List.mem_cons_self a rest)
    obtain ⟨h1, h2, h3⟩ := joinStep_inv s t hinv ha
    obtain ⟨g1, g2, g3⟩ := ih (fun b hb => hl b (List.mem_cons_of_mem a hb))
      (joinStep s t a) h1
    refine ⟨by simpa using g1, fun j => ⟨?_, ?_⟩, ?_⟩
    · simpa using ((g2 j).1.trans (h2 j).1)
    · simpa using ((g2 j).2.trans (h2 j).2)
    · simpa using (g3.trans h3)

/-- `join_neighbors` preserves coherence, coordinates, and the arena length. -/
theorem joinNeighbors_inv (s : MapState) (t : Nat) (hinv : InvP s) :
    InvP (joinNeighbors s t) ∧
      (∀ j, tx (joinNeighbors s t) j = tx s j ∧ ty (joinNeighbors s t) j = ty s j) ∧
      (joinNeighbors s t).tiles.length = s.tiles.length :=
  foldJoin_inv t angles (fun _ ha => ha) s hinv

/-- Writing `none` into a slot can only erase or keep reads. -/
theorem get_put_none (v : Nbrs) {a b : Nat} (ha : a ∈ angles) (hb : b ∈ angles) :
    (v.put a none).get b = none ∨ (v.put a none).get b = v.get b := by
  by_cases h : a = b
  · subst h
    exact Or.inl (nbrs_put_get_self v none ha)
  · exact Or.inr (nbrs_put_get_ne v none ha hb h)

/-- Coherence transfers along a state whose links are a subset of the
original's and whose coordinates agree. -/
theorem inv_of_sublinks {s s' : MapState}
    (hlen : s'.tiles.length = s.tiles.length)
    (hsub : ∀ i b, b ∈ angles →
      tileNbr s' i b = none ∨ tileNbr s' i b = tileNbr s i b)
    (hco : ∀ j, tx s' j = tx s j ∧ ty s' j = ty s j)
    (hinv : InvP s) : InvP s' := by
  intro i b j hi hb hnbr
  rcases hsub i b hb with hn | he
  · rw [hn] at hnbr; cases hnbr
  · rw [he] at hnbr
    obtain ⟨h1, h2, h3⟩ := hinv i b j (hlen ▸ hi) hb hnbr
    refine ⟨hlen ▸ h1, ?_, ?_⟩
    · rw [(hco j).1, (hco i).1]; exact h2
    · rw [(hco j).2, (hco i).2]; exact h3

/-- `delete_neighbors` step with no link present is the identity. -/
theorem deleteStep_eq_none {t : Nat} {s : MapState} {a : Nat}
    (h : tileNbr s t a = none) : deleteStep t s a = s := by
  unfold deleteStep; rw [h]

/-- `delete_neighbors` step with a link present, unfolded. -/
theorem deleteStep_eq_some {t : Nat} {s : MapState} {a u : Nat}
    (h : tileNbr s t a = some u) :
    deleteStep t s a =
      modTile (modTile s u (fun h => h.putNbr ((a + 180) % 360) none)) t
        (fun h => h.putNbr a none) := by
  unfold deleteStep; rw [h]

/-- Writing `none` into one tile slot only removes links, moves nothing,
and keeps the arena length. -/
theorem modTile_putNone_sub (s : MapState) (w : Nat) {c : Nat} (hc : c ∈ angles) :
    (∀ i b, b ∈ angles →
      tileNbr (modTile s w (fun h => h.putNbr c none)) i b = none ∨
      tileNbr (modTile s w (fun h => h.putNbr c none)) i b = tileNbr s i b) ∧
    (∀ j, tx (modTile s w (fun h => h.putNbr c none)) j = tx s j ∧
      ty (modTile s w (fun h => h.putNbr c none)) j = ty s j) ∧
    (modTile s w (fun h => h.putNbr c none)).tiles.length = s.tiles.length := by
  refine ⟨?_, ?_, modTile_len s w _⟩
  · intro i b hb
    by_cases hwi : w = i
    · subst hwi
      cases hv : lget s.tiles w with
      | none =>
        have : lget (modTile s w (fun h => h.putNbr c none)).tiles w = lget s.tiles w := by
          simp [modTile, lget_lmod, hv]
        exact Or.inr (nbr_congr this b)
      | some v =>
        rw [nbr_of_lget (lget_modTile_self s w _ hv) b, nbr_of_lget hv b]
        exact get_put_none v.nbrs hc hb
    · exact Or.inr (nbr_congr (lget_modTile_ne s w _ i hwi) b)
  · intro j
    by_cases hwj : w = j
    · subst hwj
      cases hv : lget s.tiles w with
      | none =>
        have : lget (modTile s w (fun h => h.putNbr c none)).tiles w = lget s.tiles w := by
          simp [modTile, lget_lmod, hv]
        exact ⟨tx_congr this, ty_congr this⟩
      | some v =>
        rw [tx_of_lget (lget_modTile_self s w _ hv), ty_of_lget (lget_modTile_self s w _ hv),
          tx_of_lget hv, ty_of_lget hv]
        exact ⟨rfl, rfl⟩
    · have := lget_modTile_ne s w (fun h => h.putNbr c none) j hwj
      exact ⟨tx_congr this, ty_congr this⟩

/-- One `delete_neighbors` step only removes links and moves nothing. -/
theorem deleteStep_sub (t : Nat) (s : MapState) {a : Nat} (ha : a ∈ angles) :
    (∀ i b, b ∈ angles →
      tileNbr (deleteStep t s a) i b = none ∨
      tileNbr (deleteStep t s a) i b = tileNbr s i b) ∧
    (∀ j, tx (deleteStep t s a) j = tx s j ∧ ty (deleteStep t s a) j = ty s j) ∧
    (deleteStep t s a).tiles.length = s.tiles.length := by
  cases h1 : tileNbr s t a with
  | none => rw [deleteStep_eq_none h1]
            exact ⟨fun i b _ => Or.inr rfl, fun j => ⟨rfl, rfl⟩, rfl⟩
  | some u =>
    rw [deleteStep_eq_some h1]
    obtain ⟨s1sub, s1co, s1len⟩ := modTile_putNone_sub s u (opp_mem ha)
    obtain ⟨s2sub, s2co, s2len⟩ :=
      modTile_putNone_sub (modTile s u (fun h => h.putNbr ((a + 180) % 360) none)) t ha
    refine ⟨?_, ?_, s2len.trans s1len⟩
    · intro i b hb
      rcases s2sub i b hb with h | h
      · exact Or.inl h
      · rcases s1sub i b hb with h2 | h2
        · exact Or.inl (h.trans h2)
        · exact Or.inr (h.trans h2)
    · intro j
      exact ⟨(s2co j).1.trans (s1co j).1, (s2co j).2.trans (s1co j).2⟩

/-- `delete_neighbors` preserves coherence, coordinates, and the arena
length. -/
theorem deleteNeighbors_inv (s : MapState) (t : Nat) (hinv : InvP s) :
    InvP (deleteNeighbors s t) ∧
      (∀ j, tx (deleteNeighbors s t) j = tx s j ∧ ty (deleteNeighbors s t) j = ty s j) ∧
      (deleteNeighbors s t).tiles.length = s.tiles.length := by
  have main : ∀ (l : List Nat), (∀ a ∈ l, a ∈ angles) → ∀ (s : MapState), InvP s →
      InvP (l.foldl (deleteStep t) s) ∧
      (∀ j, tx (l.foldl (deleteStep t) s) j = tx s j ∧
        ty (l.foldl (deleteStep t) s) j = ty s j) ∧
      (l.foldl (deleteStep t) s).tiles.length = s.tiles.length := by
    intro l
    induction l with
    | nil => exact fun _ s hinv => ⟨hinv, fun j => ⟨rfl, rfl⟩, rfl⟩
    | cons a rest ih =>
      intro hl s hinv
      have ha := hl a (List.mem_cons_self a rest)
      obtain ⟨hsub, hco, hlen⟩ := deleteStep_sub t s ha
      have h1 : InvP (deleteStep t s a) := inv_of_sublinks hlen hsub hco hinv
      obtain ⟨g1, g2, g3⟩ := ih (fun b hb => hl b (List.mem_cons_of_mem a hb))
        (deleteStep t s a) h1
      refine ⟨by simpa using g1, fun j => ⟨?_, ?_⟩, ?_⟩
      · simpa using ((g2 j).1.trans (hco j).1)
      · simpa using ((g2 j).2.trans (hco j).2)
      · simpa using (g3.trans hlen)
  exact main angles (fun _ ha => ha) s hinv

/-- Appending a linkless tile preserves coherence and the old tiles'
reads. -/
theorem append_inv (s : MapState) (h : HexTile) (hinv : InvP s)
    (hnb : ∀ b, h.nbrAt b = none) :
    InvP { s with tiles := s.tiles ++ [h] } ∧
      (∀ j, j < s.tiles.length →
        lget (s.tiles ++ [h]) j = lget s.tiles j) ∧
      lget (s.tiles ++ [h]) s.tiles.length = some h := by
  have hkeep : ∀ j, j < s.tiles.length → lget (s.tiles ++ [h]) j = lget s.tiles j := by
    intro j hj
    rw [lget_append]
    simp [hj]
  have hnew : lget (s.tiles ++ [h]) s.tiles.length = some h := by
    rw [lget_append]
    simp [lget]
  refine ⟨?_, hkeep, hnew⟩
  intro i b j hi hb hnbr
  have hlen : ({ s with tiles := s.tiles ++ [h] } : MapState).tiles.length =
      s.tiles.length + 1 := by simp
  by_cases hil : i < s.tiles.length
  · have hsame : lget ({ s with tiles := s.tiles ++ [h] } : MapState).tiles i =
        lget s.tiles i := hkeep i hil
    rw [nbr_congr hsame b] at hnbr
    obtain ⟨h1, h2, h3⟩ := hinv i b j hil hb hnbr
    have hjsame : lget ({ s with tiles := s.tiles ++ [h] } : MapState).tiles j =
        lget s.tiles j := hkeep j h1
    refine ⟨by rw [hlen]; omega, ?_, ?_⟩
    · rw [tx_congr hjsame, tx_congr hsame]; exact h2
    · rw [ty_congr hjsame, ty_congr hsame]; exact h3
  · have hieq : i = s.tiles.length := by
      rw [hlen] at hi; omega
    have : lget ({ s with tiles := s.tiles ++ [h] } : MapState).tiles i = some h := by
      rw [hieq]; exact hnew
    rw [nbr_of_lget this b, hnb b] at hnbr
    cases hnbr

/-- In a coherent state no link can point at an id at or beyond the arena
length. -/
theorem no_link_to_fresh {s : MapState} (hinv : InvP s) :
    ∀ i b j, i < s.tiles.length → b ∈ angles → tileNbr s i b = some j →
      j < s.tiles.length :=
  fun i b j hi hb hnbr => (hinv i b j hi hb hnbr).1

/-- `grow_hex` skips missing tiles. -/
theorem growStep_eq_skip1 {t : Nat} {p : HexParams} {acc : MapState × List Nat} {a : Nat}
    (h : lget acc.1.tiles t = none) : growStep t p acc a = acc := by
  unfold growStep; rw [h]

/-- `grow_hex` never overwrites an existing neighbor. -/
theorem growStep_eq_skip2 {t : Nat} {p : HexParams} {acc : MapState × List Nat} {a : Nat}
    {ht : HexTile} {w : Nat} (h : lget acc.1.tiles t = some ht)
    (h2 : ht.nbrAt a = some w) : growStep t p acc a = acc := by
  unfold growStep
  rw [h]
  show growStepLink t p acc a ht = _
  unfold growStepLink
  rw [h2]

/-- `grow_hex` creates and links a fresh tile in an empty direction. -/
theorem growStep_eq_new {t : Nat} {p : HexParams} {acc : MapState × List Nat} {a : Nat}
    {ht : HexTile} (h : lget acc.1.tiles t = some ht) (h2 : ht.nbrAt a = none) :
    growStep t p acc a =
      (newNeighbor { acc.1 with tiles := acc.1.tiles ++ [mkTile p] } t a
        acc.1.tiles.length,
       acc.2 ++ [acc.1.tiles.length]) := by
  unfold growStep
  rw [h]
  show growStepLink t p acc a ht = _
  unfold growStepLink
  rw [h2]

/-- One `grow_hex` direction preserves coherence, can only extend the
arena, and keeps the coordinates of every pre-existing tile. -/
theorem growStep_inv (t : Nat) (p : HexParams) (acc : MapState × List Nat) {a : Nat}
    (ha : a ∈ angles) (hinv : InvP acc.1) :
    InvP (growStep t p acc a).1 ∧
      acc.1.tiles.length ≤ (growStep t p acc a).1.tiles.length ∧
      (∀ j, j < acc.1.tiles.length →
        tx (growStep t p acc a).1 j = tx acc.1 j ∧
        ty (growStep t p acc a).1 j = ty acc.1 j) := by
  cases hvt : lget acc.1.tiles t with
  | none =>
    rw [growStep_eq_skip1 hvt]
    exact ⟨hinv, Nat.le_refl _, fun j _ => ⟨rfl, rfl⟩⟩
  | some ht =>
    cases hna : ht.nbrAt a with
    | some w =>
      rw [growStep_eq_skip2 hvt hna]
      exact ⟨hinv, Nat.le_refl _, fun j _ => ⟨rfl, rfl⟩⟩
    | none =>
      rw [growStep_eq_new hvt hna]
      have hmk : ∀ b, (mkTile p).nbrAt b = none := fun b => empty_get b
      obtain ⟨hinv1, hkeep, hnew⟩ := append_inv acc.1 (mkTile p) hinv hmk
      have htlt : t < acc.1.tiles.length := lget_lt_of_some hvt
      have hht1 : lget ({ acc.1 with tiles := acc.1.tiles ++ [mkTile p] } :
          MapState).tiles t = some ht := by
        show lget (acc.1.tiles ++ [mkTile p]) t = some ht
        rw [hkeep t htlt]; exact hvt
      have hhu1 : lget ({ acc.1 with tiles := acc.1.tiles ++ [mkTile p] } :
          MapState).tiles acc.1.tiles.length = some (mkTile p) := hnew
      have hne : t ≠ acc.1.tiles.length := by omega
      have hs1len : ({ acc.1 with tiles := acc.1.tiles ++ [mkTile p] } :
          MapState).tiles.length = acc.1.tiles.length + 1 := by simp
      have hnou : ∀ i b j,
          i < ({ acc.1 with tiles := acc.1.tiles ++ [mkTile p] } : MapState).tiles.length →
          b ∈ angles →
          tileNbr { acc.1 with tiles := acc.1.tiles ++ [mkTile p] } i b = some j →
          j ≠ acc.1.tiles.length := by
        intro i b j hi hb hn
        by_cases hil : i < acc.1.tiles.length
        · rw [nbr_congr (hkeep i hil) b] at hn
          have := (hinv i b j hil hb hn).1
          omega
        · have hieq : i = acc.1.tiles.length := by rw [hs1len] at hi; omega
          rw [hieq, nbr_of_lget hnew b, hmk b] at hn
          cases hn
      refine ⟨nn_fresh_inv hinv1 hht1 hhu1 ha hne hmk hnou, ?_, ?_⟩
      · rw [nn_len, hs1len]; omega
      · intro j hj
        have hj1 : j ≠ acc.1.tiles.length := by omega
        obtain ⟨c1, c2⟩ := nn_coords_ne_u
          { acc.1 with tiles := acc.1.tiles ++ [mkTile p] } t a acc.1.tiles.length j hj1
        exact ⟨c1.trans (tx_congr (hkeep j hj)), c2.trans (ty_congr (hkeep j hj))⟩

/-- The creation loop of `grow_hex` over any list of legal angles. -/
theorem foldGrow_inv (t : Nat) (p : HexParams) (angs : List Nat)
    (hl : ∀ a ∈ angs, a ∈ angles) (acc : MapState × List Nat) (hinv : InvP acc.1) :
    InvP (angs.foldl (growStep t p) acc).1 ∧
      acc.1.tiles.length ≤ (angs.foldl (growStep t p) acc).1.tiles.length ∧
      (∀ j, j < acc.1.tiles.length →
        tx (angs.foldl (growStep t p) acc).1 j = tx acc.1 j ∧
        ty (angs.foldl (growStep t p) acc).1 j = ty acc.1 j) := by
  induction angs generalizing acc with
  | nil => exact ⟨hinv, Nat.le_refl _, fun j _ => ⟨rfl, rfl⟩⟩
  | cons a rest ih =>
    have ha := hl a (List.mem_cons_self a rest)
    obtain ⟨h1, h2, h3⟩ := growStep_inv t p acc ha hinv
    obtain ⟨g1, g2, g3⟩ := ih (fun b hb => hl b (List.mem_cons_of_mem a hb))
      (growStep t p acc a) h1
    refine ⟨by simpa using g1, ?_, ?_⟩
    · simp only [List.foldl_cons]
      omega
    · intro j hj
      have hj2 : j < (growStep t p acc a).1.tiles.length := by omega
      obtain ⟨c1, c2⟩ := g3 j hj2
      obtain ⟨d1, d2⟩ := h3 j hj
      constructor
      · simpa using (c1.trans d1)
      · simpa using (c2.trans d2)

/-- `grow_hex`, unfolded to its join-then-extend form. -/
theorem growHex_1_eq (s : MapState) (t : Nat) (angs : List Nat) (p : HexParams) :
    (growHex s t angs p).1 =
      { joinNeighbors (angs.foldl (growStep t p) (s, [])).1 t with
        hexes := (joinNeighbors (angs.foldl (growStep t p) (s, [])).1 t).hexes ++
          (angs.foldl (growStep t p) (s, [])).2 } := rfl

/-- Replacing the `hexes` list leaves the arena untouched. -/
theorem invP_hexes (s : MapState) (h : List Nat) :
    InvP { s with hexes := h } ↔ InvP s := Iff.rfl

/-- Replacing the `hexes` list leaves the arena untouched. -/
theorem tiles_hexes (s : MapState) (h : List Nat) :
    ({ s with hexes := h } : MapState).tiles = s.tiles := rfl

/-- `grow_hex` preserves coherence, only extends the arena, and keeps the
coordinates of every pre-existing tile. -/
theorem growHex_inv (s : MapState) (t : Nat) (angs : List Nat) (p : HexParams)
    (hl : ∀ a ∈ angs, a ∈ angles) (hinv : InvP s) :
    InvP (growHex s t angs p).1 ∧
      s.tiles.length ≤ (growHex s t angs p).1.tiles.length ∧
      (∀ j, j < s.tiles.length →
        tx (growHex s t angs p).1 j = tx s j ∧
        ty (growHex s t angs p).1 j = ty s j) := by
  obtain ⟨f1, f2, f3⟩ := foldGrow_inv t p angs hl (s, []) hinv
  have f2' : s.tiles.length ≤ (angs.foldl (growStep t p) (s, [])).1.tiles.length := f2
  have f3' : ∀ j, j < s.tiles.length →
      tx (angs.foldl (growStep t p) (s, [])).1 j = tx s j ∧
      ty (angs.foldl (growStep t p) (s, [])).1 j = ty s j := f3
  obtain ⟨j1, j2, j3⟩ := joinNeighbors_inv (angs.foldl (growStep t p) (s, [])).1 t f1
  rw [growHex_1_eq]
  refine ⟨(invP_hexes _ _).2 j1, ?_, ?_⟩
  · show s.tiles.length ≤
      (joinNeighbors (angs.foldl (growStep t p) (s, [])).1 t).tiles.length
    omega
  · intro j hj
    obtain ⟨c1, c2⟩ := f3' j hj
    have e1 : tx { joinNeighbors (angs.foldl (growStep t p) (s, [])).1 t with
        hexes := (joinNeighbors (angs.foldl (growStep t p) (s, [])).1 t).hexes ++
          (angs.foldl (growStep t p) (s, [])).2 } j =
        tx (joinNeighbors (angs.foldl (growStep t p) (s, [])).1 t) j := rfl
    have e2 : ty { joinNeighbors (angs.foldl (growStep t p) (s, [])).1 t with
        hexes := (joinNeighbors (angs.foldl (growStep t p) (s, [])).1 t).hexes ++
          (angs.foldl (growStep t p) (s, [])).2 } j =
        ty (joinNeighbors (angs.foldl (growStep t p) (s, [])).1 t) j := rfl
    exact ⟨e1.trans ((j2 j).1.trans c1), e2.trans ((j2 j).2.trans c2)⟩

/-- `grow_map` preserves coherence, only extends the arena, and keeps the
coordinates of every pre-existing tile. -/
theorem growMap_inv (s : MapState) (angs : List Nat) (p : HexParams)
    (hl : ∀ a ∈ angs, a ∈ angles) (hinv : InvP s) :
    InvP (growMap s angs p).1 ∧
      s.tiles.length ≤ (growMap s angs p).1.tiles.length ∧
      (∀ j, j < s.tiles.length →
        tx (growMap s angs p).1 j = tx s j ∧
        ty (growMap s angs p).1 j = ty s j) := by
  have main : ∀ (l : List Nat) (acc : MapState × List Nat), InvP acc.1 →
      InvP (l.foldl (fun acc t => ((growHex acc.1 t angs p).1,
        acc.2 ++ (growHex acc.1 t angs p).2)) acc).1 ∧
      acc.1.tiles.length ≤ (l.foldl (fun acc t => ((growHex acc.1 t angs p).1,
        acc.2 ++ (growHex acc.1 t angs p).2)) acc).1.tiles.length ∧
      (∀ j, j < acc.1.tiles.length →
        tx (l.foldl (fun acc t => ((growHex acc.1 t angs p).1,
          acc.2 ++ (growHex acc.1 t angs p).2)) acc).1 j = tx acc.1 j ∧
        ty (l.foldl (fun acc t => ((growHex acc.1 t angs p).1,
          acc.2 ++ (growHex acc.1 t angs p).2)) acc).1 j = ty acc.1 j) := by
    intro l
    induction l with
    | nil => exact fun acc hinv => ⟨hinv, Nat.le_refl _, fun j _ => ⟨rfl, rfl⟩⟩
    | cons t rest ih =>
      intro acc hinv
      obtain ⟨h1, h2, h3⟩ := growHex_inv acc.1 t angs p hl hinv
      obtain ⟨g1, g2, g3⟩ := ih ((growHex acc.1 t angs p).1,
        acc.2 ++ (growHex acc.1 t angs p).2) h1
      have g2' : (growHex acc.1 t angs p).1.tiles.length ≤
          (rest.foldl (fun acc t => ((growHex acc.1 t angs p).1,
            acc.2 ++ (growHex acc.1 t angs p).2))
            ((growHex acc.1 t angs p).1, acc.2 ++ (growHex acc.1 t angs p).2)).1.tiles.length :=
        g2
      have g3' : ∀ j, j < (growHex acc.1 t angs p).1.tiles.length →
          tx (rest.foldl (fun acc t => ((growHex acc.1 t angs p).1,
            acc.2 ++ (growHex acc.1 t angs p).2))
            ((growHex acc.1 t angs p).1, acc.2 ++ (growHex acc.1 t angs p).2)).1 j =
            tx (growHex acc.1 t angs p).1 j ∧
          ty (rest.foldl (fun acc t => ((growHex acc.1 t angs p).1,
            acc.2 ++ (growHex acc.1 t angs p).2))
            ((growHex acc.1 t angs p).1, acc.2 ++ (growHex acc.1 t angs p).2)).1 j =
            ty (growHex acc.1 t angs p).1 j :=
        g3
      refine ⟨by simpa using g1, ?_, ?_⟩
      · simp only [List.foldl_cons]
        omega
      · intro j hj
        have hj2 : j < (growHex acc.1 t angs p).1.tiles.length := by omega
        obtain ⟨c1, c2⟩ := g3' j hj2
        obtain ⟨d1, d2⟩ := h3 j hj
        constructor
        · simpa using (c1.trans d1)
        · simpa using (c2.trans d2)
  have hm := main s.hexes (s, []) hinv
  exact hm

/-- `start_hex` preserves coherence and keeps the coordinates of every
pre-existing tile. -/
theorem startHex_inv (s : MapState) (p : HexParams) (hinv : InvP s) :
    InvP (startHex s p).1 ∧
      s.tiles.length ≤ (startHex s p).1.tiles.length ∧
      (∀ j, j < s.tiles.length →
        tx (startHex s p).1 j = tx s j ∧ ty (startHex s p).1 j = ty s j) := by
  obtain ⟨h1, hkeep, hnew⟩ := append_inv s (mkTile p) hinv (fun b => empty_get b)
  refine ⟨?_, ?_, ?_⟩
  · intro i b j hi hb hnbr
    exact h1 i b j hi hb hnbr
  · show s.tiles.length ≤ (s.tiles ++ [mkTile p]).length
    simp
  · intro j hj
    exact ⟨tx_congr (hkeep j hj), ty_congr (hkeep j hj)⟩

/-- Congruence for `List.all`. -/
theorem all_congr2 {α : Type} (l : List α) (f g : α → Bool)
    (h : ∀ x ∈ l, f x = g x) : l.all f = l.all g := by
  induction l with
  | nil => rfl
  | cons a rest ih =>
    simp only [List.all_cons]
    rw [h a (List.mem_cons_self a rest),
      ih (fun x hx => h x (List.mem_cons_of_mem a hx))]

/-- `SameGraph` is reflexive. -/
theorem sameGraph_refl (s : MapState) : SameGraph s s :=
  ⟨rfl, fun _ _ => rfl, fun _ => rfl, fun _ => rfl⟩

/-- `SameGraph` composes. -/
theorem sameGraph_trans {s s' s'' : MapState}
    (h1 : SameGraph s s') (h2 : SameGraph s' s'') : SameGraph s s'' :=
  ⟨h2.1.trans h1.1, fun i b => (h2.2.1 i b).trans (h1.2.1 i b),
   fun i => (h2.2.2.1 i).trans (h1.2.2.1 i), fun i => (h2.2.2.2 i).trans (h1.2.2.2 i)⟩

/-- Updating a tile's non-graph attributes leaves the graph untouched. -/
theorem modTile_same (s : MapState) (i : Nat) (f : HexTile → HexTile)
    (hf : ∀ h, (f h).nbrs = h.nbrs ∧ (f h).x = h.x ∧ (f h).y2 = h.y2) :
    SameGraph s (modTile s i f) := by
  refine ⟨modTile_len s i f, ?_, ?_, ?_⟩
  · intro j b
    by_cases hij : i = j
    · subst hij
      cases hv : lget s.tiles i with
      | none =>
        have : lget (modTile s i f).tiles i = lget s.tiles i := by
          simp [modTile, lget_lmod, hv]
        exact nbr_congr this b
      | some v =>
        rw [nbr_of_lget (lget_modTile_self s i f hv) b, nbr_of_lget hv b]
        show (f v).nbrs.get b = v.nbrs.get b
        rw [(hf v).1]
    · exact nbr_congr (lget_modTile_ne s i f j hij) b
  · intro j
    by_cases hij : i = j
    · subst hij
      cases hv : lget s.tiles i with
      | none =>
        exact tx_congr (by simp [modTile, lget_lmod, hv])
      | some v =>
        rw [tx_of_lget (lget_modTile_self s i f hv), tx_of_lget hv, (hf v).2.1]
    · exact tx_congr (lget_modTile_ne s i f j hij)
  · intro j
    by_cases hij : i = j
    · subst hij
      cases hv : lget s.tiles i with
      | none =>
        exact ty_congr (by simp [modTile, lget_lmod, hv])
      | some v =>
        rw [ty_of_lget (lget_modTile_self s i f hv), ty_of_lget hv, (hf v).2.2]
    · exact ty_congr (lget_modTile_ne s i f j hij)

/-- Changing `tries` (or any non-tile field) leaves the graph untouched. -/
theorem sameGraph_tries (s : MapState) (n : Nat) :
    SameGraph s { s with tries := n } :=
  ⟨rfl, fun _ _ => rfl, fun _ => rfl, fun _ => rfl⟩

/-- `set_terrain` leaves the graph untouched. -/
theorem setTerrain_same (s : MapState) (rezes : List String) :
    SameGraph s (setTerrain s rezes) := by
  unfold setTerrain
  have main : ∀ (l : List (Nat × String)) (st : MapState),
      SameGraph st (l.foldl (fun st tr =>
        modTile st tr.1 (fun h => { h with terr := tr.2 })) st) := by
    intro l
    induction l with
    | nil => exact fun st => sameGraph_refl st
    | cons a rest ih =>
      intro st
      have h1 := modTile_same st a.1 (fun h => { h with terr := a.2 })
        (fun h => ⟨rfl, rfl, rfl⟩)
      exact sameGraph_trans h1 (by simpa using ih (modTile st a.1
        (fun h => { h with terr := a.2 })))
  exact main (s.columns.zip rezes) s

/-- `set_ports` leaves the graph untouched. -/
theorem setPorts_same (s : MapState) (portNames : List String) :
    SameGraph s (setPorts s portNames) := by
  unfold setPorts
  have main : ∀ (l : List (Nat × String)) (st : MapState),
      SameGraph st (l.foldl (fun st tp =>
        modTile st tp.1 (fun h => { h with terr := tp.2 })) st) := by
    intro l
    induction l with
    | nil => exact fun st => sameGraph_refl st
    | cons a rest ih =>
      intro st
      have h1 := modTile_same st a.1 (fun h => { h with terr := a.2 })
        (fun h => ⟨rfl, rfl, rfl⟩)
      exact sameGraph_trans h1 (by simpa using ih (modTile st a.1
        (fun h => { h with terr := a.2 })))
  exact main (s.ports.zip portNames) s

/-- `set_numbers` leaves the graph untouched (the `num` setter only writes
`num` and `pips`). -/
theorem setNumbers_same (s : MapState) (nums : List Int) :
    SameGraph s (setNumbers s nums) := by
  unfold setNumbers
  have main : ∀ (l : List Nat) (ns : List Int) (st : MapState),
      SameGraph st (setNumbersGo l ns st) := by
    intro l
    induction l with
    | nil => exact fun ns st => sameGraph_refl st
    | cons t rest ih =>
      intro ns st
      unfold setNumbersGo
      by_cases hd : tileTerr st t = "DSRT"
      · rw [if_pos hd]
        exact sameGraph_trans (modTile_same st t (fun h => setNum h 0)
          (fun h => ⟨rfl, rfl, rfl⟩)) (ih ns _)
      · rw [if_neg hd]
        cases ns with
        | nil => exact sameGraph_refl st
        | cons n ns' =>
          exact sameGraph_trans (modTile_same st t (fun h => setNum h n)
            (fun h => ⟨rfl, rfl, rfl⟩)) (ih ns' _)
  exact main s.spiral nums s

/-- One layout pass leaves the graph untouched. -/
theorem layoutPass_same (tL : Nat → List String) (nL : Nat → List Int)
    (pL : Nat → List String) (k : Nat) (s : MapState) :
    SameGraph s (layoutPass tL nL pL k s) :=
  sameGraph_trans (setTerrain_same s (tL k))
    (sameGraph_trans (setNumbers_same (setTerrain s (tL k)) (nL k))
      (setPorts_same (setNumbers (setTerrain s (tL k)) (nL k)) (pL k)))

/-- Whatever state the layout retry loop accepts has the graph of its
input. -/
theorem layoutGo_same (tL : Nat → List String) (nL : Nat → List Int)
    (pL : Nat → List String) (validate : List (MapState → Bool)) :
    ∀ (fuel k : Nat) (s s' : MapState) (m : Nat),
      layoutGo tL nL pL validate fuel k s = some (s', m) → SameGraph s s' := by
  intro fuel
  induction fuel with
  | zero => intro k s s' m h; cases h
  | succ f ih =>
    intro k s s' m h
    unfold layoutGo at h
    by_cases hv : (validate.all fun v => v (layoutPass tL nL pL k s)) = true
    · rw [if_pos hv] at h
      injection h with h1
      have h2 : layoutPass tL nL pL k s = s' := congrArg Prod.fst h1
      exact h2 ▸ layoutPass_same tL nL pL k s
    · rw [if_neg hv] at h
      have hrec := ih (k + 1) { layoutPass tL nL pL k s with
        tries := (layoutPass tL nL pL k s).tries + 1 } s' m h
      exact sameGraph_trans (sameGraph_trans (layoutPass_same tL nL pL k s)
        (sameGraph_tries _ _)) hrec

/-- Whatever state `layout` accepts has the graph of its input. -/
theorem layout_same (tL : Nat → List String) (nL : Nat → List Int)
    (pL : Nat → List String) (validate : List (MapState → Bool))
    (fuel : Nat) (s s' : MapState) (m : Nat)
    (h : layout tL nL pL validate fuel s = some (s', m)) : SameGraph s s' := by
  unfold layout at h
  exact sameGraph_trans (sameGraph_tries s _) (layoutGo_same tL nL pL validate fuel 0 _ s' m h)

/-- `mutualCheck` only looks at the graph. -/
theorem mutualCheck_same {s s' : MapState} (h : SameGraph s s') :
    mutualCheck s' = mutualCheck s := by
  obtain ⟨hlen, hnbr, _, _⟩ := h
  unfold mutualCheck
  rw [hlen]
  apply all_congr2
  intro i _
  apply all_congr2
  intro a _
  rw [hnbr i a]
  cases tileNbr s i a with
  | none => rfl
  | some j =>
    show (tileNbr s' j ((a + 180) % 360) == some i) =
      (tileNbr s j ((a + 180) % 360) == some i)
    rw [hnbr j ((a + 180) % 360)]

/-- Coherence only looks at the graph. -/
theorem invP_of_same {s s' : MapState} (hs : SameGraph s s') (hinv : InvP s) :
    InvP s' := by
  intro i b j hi hb hnbr
  rw [hs.1] at hi
  rw [hs.2.1 i b] at hnbr
  obtain ⟨h1, h2, h3⟩ := hinv i b j hi hb hnbr
  refine ⟨hs.1 ▸ h1, ?_, ?_⟩
  · rw [hs.2.2.1 j, hs.2.2.1 i]; exact h2
  · rw [hs.2.2.2 j, hs.2.2.2 i]; exact h3

/-- Coordinates only look at the graph. -/
theorem coordsEq_of_same {s s' : MapState} (hs : SameGraph s s') : CoordsEq s s' :=
  fun j _ => ⟨hs.2.2.1 j, hs.2.2.2 j⟩

/-- The executable coherence check agrees with the propositional one. -/
theorem invB_iff (s : MapState) : invB s = true ↔ InvP s := by
  constructor
  · intro H i a j hi ha hn
    have h1 := List.all_eq_true.mp H i (List.mem_range.mpr hi)
    have h2 := List.all_eq_true.mp h1 a ha
    rw [hn] at h2
    have h3 : (decide (j < s.tiles.length) &&
        (tx s j == tx s i + (dirXY a).1) && (ty s j == ty s i + (dirXY a).2)) = true := h2
    simp only [Bool.and_eq_true, decide_eq_true_eq, beq_iff_eq] at h3
    exact ⟨h3.1.1, h3.1.2, h3.2⟩
  · intro H
    apply List.all_eq_true.mpr
    intro i hi
    apply List.all_eq_true.mpr
    intro a ha
    cases hn : tileNbr s i a with
    | none => rfl
    | some j =>
      obtain ⟨h1, h2, h3⟩ := H i a j (List.mem_range.mp hi) ha hn
      show (decide (j < s.tiles.length) &&
        (tx s j == tx s i + (dirXY a).1) && (ty s j == ty s i + (dirXY a).2)) = true
      simp [h1, h2, h3]

/-- Preservation of coherence and of every placed tile's coordinates, for
every coordinate-safe public operation (propositional version). -/
theorem mop_inv (op : MOp) (s : MapState) (hsafe : coordSafeB op = true)
    (hinv : InvP s) :
    CoordsEq s (applyMOp s op) ∧ InvP (applyMOp s op) := by
  cases op with
  | startOp p =>
    obtain ⟨h1, _, h3⟩ := startHex_inv s p hinv
    exact ⟨fun j hj => h3 j hj, h1⟩
  | newNbrOp t a u => cases hsafe
  | deleteOp t =>
    obtain ⟨h1, h2, _⟩ := deleteNeighbors_inv s t hinv
    exact ⟨fun j _ => h2 j, h1⟩
  | joinOp t =>
    obtain ⟨h1, h2, _⟩ := joinNeighbors_inv s t hinv
    exact ⟨fun j _ => h2 j, h1⟩
  | growOp t angs p =>
    have hl : ∀ a ∈ angs, a ∈ angles := by
      intro a hamem
      have := List.all_eq_true.mp hsafe a hamem
      exact of_decide_eq_true this
    obtain ⟨h1, _, h3⟩ := growHex_inv s t angs p hl hinv
    exact ⟨fun j hj => h3 j hj, h1⟩
  | growMapOp angs p =>
    have hl : ∀ a ∈ angs, a ∈ angles := by
      intro a hamem
      have := List.all_eq_true.mp hsafe a hamem
      exact of_decide_eq_true this
    obtain ⟨h1, _, h3⟩ := growMap_inv s angs p hl hinv
    exact ⟨fun j hj => h3 j hj, h1⟩
  | surroundHexOp t p =>
    obtain ⟨h1, _, h3⟩ := growHex_inv s t angles p (fun _ ha => ha) hinv
    exact ⟨fun j hj => h3 j hj, h1⟩
  | surroundMapOp p =>
    obtain ⟨h1, _, h3⟩ := growMap_inv s angles p (fun _ ha => ha) hinv
    exact ⟨fun j hj => h3 j hj, h1⟩
  | markTerrainOp =>
    have hs : SameGraph s { s with terrain := s.hexes } :=
      ⟨rfl, fun _ _ => rfl, fun _ => rfl, fun _ => rfl⟩
    exact ⟨coordsEq_of_same hs, invP_of_same hs hinv⟩
  | portSelectOp =>
    have hs : SameGraph s { s with
        ports := oddIdx (sortDesc (atanKey s) (s.hexes.drop s.terrain.length)),
        hexes := s.terrain ++ oddIdx (sortDesc (atanKey s) (s.hexes.drop s.terrain.length)) } :=
      ⟨rfl, fun _ _ => rfl, fun _ => rfl, fun _ => rfl⟩
    exact ⟨coordsEq_of_same hs, invP_of_same hs hinv⟩
  | setTerrOp l =>
    have hs := setTerrain_same s l
    exact ⟨coordsEq_of_same hs, invP_of_same hs hinv⟩
  | setNumsOp l =>
    have hs := setNumbers_same s l
    exact ⟨coordsEq_of_same hs, invP_of_same hs hinv⟩
  | setPortsOp l =>
    have hs := setPorts_same s l
    exact ⟨coordsEq_of_same hs, invP_of_same hs hinv⟩

/-- The spiral loop either errors out or returns a full spiral: a returned
list extends the accumulator to exactly the terrain count (never a shorter,
partial spiral). -/
theorem spiralLoop_full (s : MapState) (n : Nat) :
    ∀ (fuel : Nat) (acc : List Nat) (cur a : Nat) (l : List Nat),
      spiralLoop s n fuel acc cur a = some l →
      (acc.length < n → l.length = n) ∧ (¬acc.length < n → l = acc) := by
  intro fuel
  induction fuel with
  | zero =>
    intro acc cur a l h
    unfold spiralLoop at h
    by_cases hlt : acc.length < n
    · rw [if_pos hlt] at h; cases h
    · rw [if_neg hlt] at h
      injection h with h1
      exact ⟨fun hc => absurd hc hlt, fun _ => h1.symm⟩
  | succ f ih =>
    intro acc cur a l h
    unfold spiralLoop at h
    by_cases hlt : acc.length < n
    · rw [if_pos hlt] at h
      cases hna : nextSpiralAngle s acc cur 6 a with
      | none => rw [hna] at h; cases h
      | some a' =>
        rw [hna] at h
        have hm : (match tileNbr s cur a' with
            | none => none
            | some u => spiralLoop s n f (acc ++ [u]) u a') = some l := h
        cases hnb : tileNbr s cur a' with
        | none =>
          rw [hnb] at hm
          cases hm
        | some u =>
          rw [hnb] at hm
          have h' : spiralLoop s n f (acc ++ [u]) u a' = some l := hm
          obtain ⟨g1, g2⟩ := ih (acc ++ [u]) u a' l h'
          refine ⟨fun _ => ?_, fun hc => absurd hlt hc⟩
          by_cases h2 : (acc ++ [u]).length < n
          · exact g1 h2
          · have h3 := g2 h2
            rw [h3]
            simp only [List.length_append, List.length_cons, List.length_nil] at h2 ⊢
            omega
    · rw [if_neg hlt] at h
      injection h with h1
      exact ⟨fun hc => absurd hc hlt, fun _ => h1.symm⟩

/-- `layout` with an empty validator list accepts the very first pass. -/
theorem layout_empty_accepts (tL : Nat → List String) (nL : Nat → List Int)
    (pL : Nat → List String) (f : Nat) (s : MapState) :
    layout tL nL pL [] (f + 1) s =
      some (layoutPass tL nL pL 0 { s with tries := 0 }, 1) := rfl
set_option maxRecDepth 1000000 in
set_option maxHeartbeats 2000000 in
/-- Trace state 0 of the standard build satisfies mutual adjacency
and pip consistency. -/
theorem trace00_ok : mutualCheck tr00 = true ∧ pipsCheck tr00 = true := by
  exact ⟨by decide, by decide⟩

set_option maxRecDepth 1000000 in
set_option maxHeartbeats 2000000 in
/-- Trace state 1 of the standard build satisfies mutual adjacency
and pip consistency. -/
theorem trace01_ok : mutualCheck tr01 = true ∧ pipsCheck tr01 = true := by
  exact ⟨by decide, by decide⟩

set_option maxRecDepth 1000000 in
set_option maxHeartbeats 2000000 in
/-- Trace state 2 of the standard build satisfies mutual adjacency
and pip consistency. -/
theorem trace02_ok : mutualCheck tr02 = true ∧ pipsCheck tr02 = true := by
  exact ⟨by decide, by decide⟩

set_option maxRecDepth 1000000 in
set_option maxHeartbeats 2000000 in
/-- Trace state 3 of the standard build satisfies mutual adjacency
and pip consistency. -/
theorem trace03_ok : mutualCheck tr03 = true ∧ pipsCheck tr03 = true := by
  exact ⟨by decide, by decide⟩

set_option maxRecDepth 1000000 in
set_option maxHeartbeats 2000000 in
/-- Trace state 4 of the standard build satisfies mutual adjacency
and pip consistency. -/
theorem trace04_ok : mutualCheck tr04 = true ∧ pipsCheck tr04 = true := by
  exact ⟨by decide, by decide⟩

set_option maxRecDepth 1000000 in
set_option maxHeartbeats 2000000 in
/-- Trace state 5 of the standard build satisfies mutual adjacency
and pip consistency. -/
theorem trace05_ok : mutualCheck tr05 = true ∧ pipsCheck tr05 = true := by
  exact ⟨by decide, by decide⟩

set_option maxRecDepth 1000000 in
set_option maxHeartbeats 2000000 in
/-- Trace state 6 of the standard build satisfies mutual adjacency
and pip consistency. -/
theorem trace06_ok : mutualCheck tr06 = true ∧ pipsCheck tr06 = true := by
  exact ⟨by decide, by decide⟩

set_option maxRecDepth 1000000 in
set_option maxHeartbeats 2000000 in
/-- Trace state 7 of the standard build satisfies mutual adjacency
and pip consistency. -/
theorem trace07_ok : mutualCheck tr07 = true ∧ pipsCheck tr07 = true := by
  exact ⟨by decide, by decide⟩

set_option maxRecDepth 1000000 in
set_option maxHeartbeats 2000000 in
/-- Trace state 8 of the standard build satisfies mutual adjacency
and pip consistency. -/
theorem trace08_ok : mutualCheck tr08 = true ∧ pipsCheck tr08 = true := by
  exact ⟨by decide, by decide⟩

set_option maxRecDepth 1000000 in
set_option maxHeartbeats 2000000 in
/-- Trace state 9 of the standard build satisfies mutual adjacency
and pip consistency. -/
theorem trace09_ok : mutualCheck tr09 = true ∧ pipsCheck tr09 = true := by
  exact ⟨by decide, by decide⟩

set_option maxRecDepth 1000000 in
set_option maxHeartbeats 2000000 in
/-- Trace state 10 of the standard build satisfies mutual adjacency
and pip consistency. -/
theorem trace10_ok : mutualCheck tr10 = true ∧ pipsCheck tr10 = true := by
  exact ⟨by decide, by decide⟩

set_option maxRecDepth 1000000 in
set_option maxHeartbeats 2000000 in
/-- Trace state 11 of the standard build satisfies mutual adjacency
and pip consistency. -/
theorem trace11_ok : mutualCheck tr11 = true ∧ pipsCheck tr11 = true := by
  exact ⟨by decide, by decide⟩

set_option maxRecDepth 1000000 in
set_option maxHeartbeats 2000000 in
/-- Trace state 12 of the standard build satisfies mutual adjacency
and pip consistency. -/
theorem trace12_ok : mutualCheck tr12 = true ∧ pipsCheck tr12 = true := by
  exact ⟨by decide, by decide⟩

set_option maxRecDepth 1000000 in
set_option maxHeartbeats 2000000 in
/-- Trace state 13 of the standard build satisfies mutual adjacency
and pip consistency. -/
theorem trace13_ok : mutualCheck tr13 = true ∧ pipsCheck tr13 = true := by
  exact ⟨by decide, by decide⟩

set_option maxRecDepth 1000000 in
set_option maxHeartbeats 2000000 in
/-- Trace state 14 of the standard build satisfies mutual adjacency
and pip consistency. -/
theorem trace14_ok : mutualCheck tr14 = true ∧ pipsCheck tr14 = true := by
  exact ⟨by decide, by decide⟩

set_option maxRecDepth 1000000 in
set_option maxHeartbeats 2000000 in
/-- Trace state 15 of the standard build satisfies mutual adjacency
and pip consistency. -/
theorem trace15_ok : mutualCheck tr15 = true ∧ pipsCheck tr15 = true := by
  exact ⟨by decide, by decide⟩

set_option maxRecDepth 1000000 in
set_option maxHeartbeats 2000000 in
/-- Trace state 16 of the standard build satisfies mutual adjacency
and pip consistency. -/
theorem trace16_ok : mutualCheck tr16 = true ∧ pipsCheck tr16 = true := by
  exact ⟨by decide, by decide⟩

set_option maxRecDepth 1000000 in
set_option maxHeartbeats 2000000 in
/-- Trace state 17 of the standard build satisfies mutual adjacency
and pip consistency. -/
theorem trace17_ok : mutualCheck tr17 = true ∧ pipsCheck tr17 = true := by
  exact ⟨by decide, by decide⟩

set_option maxRecDepth 1000000 in
set_option maxHeartbeats 2000000 in
/-- Trace state 18 of the standard build satisfies mutual adjacency
and pip consistency. -/
theorem trace18_ok : mutualCheck tr18 = true ∧ pipsCheck tr18 = true := by
  exact ⟨by decide, by decide⟩

set_option maxRecDepth 1000000 in
set_option maxHeartbeats 2000000 in
/-- Trace state 19 of the standard build satisfies mutual adjacency
and pip consistency. -/
theorem trace19_ok : mutualCheck tr19 = true ∧ pipsCheck tr19 = true := by
  exact ⟨by decide, by decide⟩

set_option maxRecDepth 1000000 in
set_option maxHeartbeats 2000000 in
/-- Trace state 20 of the standard build satisfies mutual adjacency
and pip consistency. -/
theorem trace20_ok : mutualCheck tr20 = true ∧ pipsCheck tr20 = true := by
  exact ⟨by decide, by decide⟩

set_option maxRecDepth 1000000 in
set_option maxHeartbeats 2000000 in
/-- Trace state 21 of the standard build satisfies mutual adjacency
and pip consistency. -/
theorem trace21_ok : mutualCheck tr21 = true ∧ pipsCheck tr21 = true := by
  exact ⟨by decide, by decide⟩

set_option maxRecDepth 1000000 in
set_option maxHeartbeats 2000000 in
/-- Trace state 22 of the standard build satisfies mutual adjacency
and pip consistency. -/
theorem trace22_ok : mutualCheck tr22 = true ∧ pipsCheck tr22 = true := by
  exact ⟨by decide, by decide⟩

set_option maxRecDepth 1000000 in
set_option maxHeartbeats 2000000 in
/-- Trace state 23 of the standard build satisfies mutual adjacency
and pip consistency. -/
theorem trace23_ok : mutualCheck tr23 = true ∧ pipsCheck tr23 = true := by
  exact ⟨by decide, by decide⟩

set_option maxRecDepth 1000000 in
set_option maxHeartbeats 2000000 in
/-- Trace state 24 of the standard build satisfies mutual adjacency
and pip consistency. -/
theorem trace24_ok : mutualCheck tr24 = true ∧ pipsCheck tr24 = true := by
  exact ⟨by decide, by decide⟩

set_option maxRecDepth 1000000 in
set_option maxHeartbeats 2000000 in
/-- Trace state 25 of the standard build satisfies mutual adjacency
and pip consistency. -/
theorem trace25_ok : mutualCheck tr25 = true ∧ pipsCheck tr25 = true := by
  exact ⟨by decide, by decide⟩

set_option maxRecDepth 1000000 in
set_option maxHeartbeats 2000000 in
/-- Trace state 26 of the standard build satisfies mutual adjacency
and pip consistency. -/
theorem trace26_ok : mutualCheck tr26 = true ∧ pipsCheck tr26 = true := by
  exact ⟨by decide, by decide⟩

set_option maxRecDepth 1000000 in
set_option maxHeartbeats 2000000 in
/-- Trace state 27 of the standard build satisfies mutual adjacency
and pip consistency. -/
theorem trace27_ok : mutualCheck tr27 = true ∧ pipsCheck tr27 = true := by
  exact ⟨by decide, by decide⟩

set_option maxRecDepth 1000000 in
set_option maxHeartbeats 2000000 in
/-- Trace state 28 of the standard build satisfies mutual adjacency
and pip consistency. -/
theorem trace28_ok : mutualCheck tr28 = true ∧ pipsCheck tr28 = true := by
  exact ⟨by decide, by decide⟩

set_option maxRecDepth 1000000 in
set_option maxHeartbeats 2000000 in
/-- Trace state 29 of the standard build satisfies mutual adjacency
and pip consistency. -/
theorem trace29_ok : mutualCheck tr29 = true ∧ pipsCheck tr29 = true := by
  exact ⟨by decide, by decide⟩

set_option maxRecDepth 1000000 in
set_option maxHeartbeats 2000000 in
/-- Trace state 30 of the standard build satisfies mutual adjacency
and pip consistency. -/
theorem trace30_ok : mutualCheck tr30 = true ∧ pipsCheck tr30 = true := by
  exact ⟨by decide, by decide⟩

set_option maxRecDepth 1000000 in
set_option maxHeartbeats 2000000 in
/-- Claim C1 counterexample: a map built only through the construction API
(`start_hex` and four `grow_hex` calls) in which mutual adjacency fails
after the last operation completes: tile 2 is in `hexes` and names tile 0
as its neighbor at angle 300, but tile 0's neighbor at
`(300 + 180) % 360 = 120` is tile 4, not tile 2 (the last grow created a
fresh tile at tile 2's position and its corner propagation overwrote
tile 0's slot). -/
theorem C1_mutual_adjacency_counterexample :
    (2 : Nat) ∈ cex1.hexes ∧ tileNbr cex1 2 300 = some 0 ∧
      ¬tileNbr cex1 0 ((300 + 180) % 360) = some 2 := by
  exact ⟨by decide, by decide, by decide⟩

/-- Claim C1 (amended): the mutual-adjacency invariant does hold after
each operation of the standard `CatanMap` construction sequence (all 31
trace states), and `layout` — whose passes only write tile attributes —
preserves it for any validators, orderings, and start state. -/
theorem C1_mutual_adjacency_amended :
    (∀ s ∈ buildTrace, mutualCheck s = true) ∧
    (∀ (tL : Nat → List String) (nL : Nat → List Int) (pL : Nat → List String)
      (validate : List (MapState → Bool)) (fuel : Nat) (s s' : MapState) (m : Nat),
      mutualCheck s = true → layout tL nL pL validate fuel s = some (s', m) →
      mutualCheck s' = true) := by
  constructor
  · intro s hs
    simp only [buildTrace, List.mem_cons, List.not_mem_nil, or_false] at hs
    rcases hs with rfl | rfl | rfl | rfl | rfl | rfl | rfl | rfl | rfl | rfl | rfl |
      rfl | rfl | rfl | rfl | rfl | rfl | rfl | rfl | rfl | rfl | rfl | rfl | rfl |
      rfl | rfl | rfl | rfl | rfl | rfl | rfl
    exacts [trace00_ok.1, trace01_ok.1, trace02_ok.1, trace03_ok.1, trace04_ok.1,
      trace05_ok.1, trace06_ok.1, trace07_ok.1, trace08_ok.1, trace09_ok.1,
      trace10_ok.1, trace11_ok.1, trace12_ok.1, trace13_ok.1, trace14_ok.1,
      trace15_ok.1, trace16_ok.1, trace17_ok.1, trace18_ok.1, trace19_ok.1,
      trace20_ok.1, trace21_ok.1, trace22_ok.1, trace23_ok.1, trace24_ok.1,
      trace25_ok.1, trace26_ok.1, trace27_ok.1, trace28_ok.1, trace29_ok.1,
      trace30_ok.1]
  · intro tL nL pL validate fuel s s' m hm hl
    rw [mutualCheck_same (layout_same tL nL pL validate fuel s s' m hl)]
    exact hm

set_option maxRecDepth 1000000 in
set_option maxHeartbeats 2000000 in
/-- Claim C1 witness: the amended theorem applied at the head of the build
trace and at a concrete one-pass layout of the arranged standard board. -/
theorem C1_witness :
    mutualCheck tr00 = true ∧
    mutualCheck (layoutPass (fun _ => beginTerr) (fun _ => standardNum)
      (fun _ => beginPort) 0 { catanMap with tries := 0 }) = true := by
  constructor
  · exact C1_mutual_adjacency_amended.1 tr00 (List.mem_cons_self _ _)
  · exact C1_mutual_adjacency_amended.2 (fun _ => beginTerr) (fun _ => standardNum)
      (fun _ => beginPort) [] 1 catanMap _ 1 (by decide) rfl

set_option maxRecDepth 1000000 in
set_option maxHeartbeats 4000000 in
/-- Claim C2: the standard board's spiral is exactly `spiralList` — 19
entries, all distinct, none a port — and the spiral loop can only return a
full spiral: any accepted result reaching back to the walk has length
exactly equal to the 19-tile terrain count, the dead-end case being the
raised error (`none`), never a shorter list. -/
theorem C2_spiral_completeness :
    arrangeSpiral catanBuilt = some spiralList ∧
    spiralList.length = 19 ∧ spiralList.Nodup ∧
    (spiralList.all fun t => !(tilePort catanBuilt t)) = true ∧
    catanBuilt.terrain.length = 19 ∧
    (∀ (fuel : Nat) (acc : List Nat) (cur a : Nat) (l : List Nat),
      spiralLoop catanBuilt 19 fuel acc cur a = some l →
      acc.length < 19 → l.length = 19) := by
  refine ⟨by decide, by decide, by decide, by decide, by decide, ?_⟩
  intro fuel acc cur a l h hlt
  exact (spiralLoop_full catanBuilt 19 fuel acc cur a l h).1 hlt

set_option maxRecDepth 1000000 in
set_option maxHeartbeats 4000000 in
/-- Claim C2 witness: the theorem's loop property applied to the concrete
spiral computation of the standard board. -/
theorem C2_witness : spiralList.length = 19 := by
  exact C2_spiral_completeness.2.2.2.2.2 19 [14] 14 60 spiralList (by decide) (by decide)

set_option maxRecDepth 1000000 in
set_option maxHeartbeats 4000000 in
/-- Claim C3 counterexample: the intersections of the freshly built
standard board contain the singleton group `[7]` (tile 7 is the top corner
of ring 2: at one turn both consecutive neighbors are port-ring tiles), so
not every group has size exactly 2 or 3. -/
theorem C3_intersections_counterexample :
    ([7] : List Nat) ∈ catanInters ∧
      ¬(([7] : List Nat).length = 2 ∨ ([7] : List Nat).length = 3) := by
  exact ⟨by decide, by decide⟩

set_option maxRecDepth 1000000 in
set_option maxHeartbeats 8000000 in
/-- Claim C3 (amended): the intersections collection is deduplicated and
every element is a group of 1 to 3 pairwise-adjacent non-port terrain
tiles sorted in ascending tile-id order (boundary tiles whose two
consecutive neighbors at some turn are both ports contribute singleton
groups). -/
theorem C3_intersections_amended :
    (catanInters.all interShape) = true ∧ catanInters.Nodup := by
  exact ⟨by decide, by decide⟩

set_option maxRecDepth 1000000 in
set_option maxHeartbeats 4000000 in
/-- Claim C4: assigning a production number updates the pip weight in the
same assignment to `6 - |7 - n|` (6 or 8 give 5, 2 or 12 give 1, the
unassigned value 0 gives the sentinel -1); tile creation computes pips the
same way, and num and pips agree at every state of the standard build and
after a full layout pass. -/
theorem C4_pip_derivation :
    (∀ (h : HexTile) (n : Int), (setNum h n).num = n ∧
      (setNum h n).pips = 6 - ((7 - n).natAbs : Int)) ∧
    (∀ p : HexParams, (mkTile p).pips = 6 - ((7 - p.num).natAbs : Int)) ∧
    (setNum defaultTile 6).pips = 5 ∧
    (setNum defaultTile 8).pips = 5 ∧
    (setNum defaultTile 2).pips = 1 ∧
    (setNum defaultTile 12).pips = 1 ∧
    (setNum defaultTile 0).pips = -1 ∧
    (∀ s ∈ buildTrace, pipsCheck s = true) ∧
    pipsCheck catanLaid = true := by
  refine ⟨fun h n => ⟨rfl, rfl⟩, fun p => rfl, by decide, by decide, by decide,
    by decide, by decide, ?_, by decide⟩
  intro s hs
  simp only [buildTrace, List.mem_cons, List.not_mem_nil, or_false] at hs
  rcases hs with rfl | rfl | rfl | rfl | rfl | rfl | rfl | rfl | rfl | rfl | rfl |
    rfl | rfl | rfl | rfl | rfl | rfl | rfl | rfl | rfl | rfl | rfl | rfl | rfl |
    rfl | rfl | rfl | rfl | rfl | rfl | rfl
  exacts [trace00_ok.2, trace01_ok.2, trace02_ok.2, trace03_ok.2, trace04_ok.2,
    trace05_ok.2, trace06_ok.2, trace07_ok.2, trace08_ok.2, trace09_ok.2,
    trace10_ok.2, trace11_ok.2, trace12_ok.2, trace13_ok.2, trace14_ok.2,
    trace15_ok.2, trace16_ok.2, trace17_ok.2, trace18_ok.2, trace19_ok.2,
    trace20_ok.2, trace21_ok.2, trace22_ok.2, trace23_ok.2, trace24_ok.2,
    trace25_ok.2, trace26_ok.2, trace27_ok.2, trace28_ok.2, trace29_ok.2,
    trace30_ok.2]

/-- Claim C4 witness: the trace conjunct applied at the head of the build
trace. -/
theorem C4_witness : pipsCheck tr00 = true :=
  C4_pip_derivation.2.2.2.2.2.2.2.1 tr00 (List.mem_cons_self _ _)

set_option maxRecDepth 1000000 in
set_option maxHeartbeats 8000000 in
/-- Claim C5: the standard build starts one center tile, the surround of
the center creates exactly 6 tiles, the surround of the map exactly 12, so
the terrain is exactly the first 19 created tiles; the next surround
creates the 18 port candidates, which are sorted clockwise starting from
the 12-o'clock tile (position (0, -3), stored as (0, -6)); every other one
is kept, giving 9 ports with the port flag set, and the finished `hexes`
is the 19 terrain tiles followed by the 9 kept ports. -/
theorem C5_build_structure :
    catanStep2.2.length = 6 ∧
    catanStep3.2.length = 12 ∧
    catanStep3m.terrain = List.range 19 ∧
    catanStep4.2.length = 18 ∧
    catanSortedPorts =
      [19, 20, 22, 24, 25, 26, 27, 28, 29, 30, 31, 32, 33, 34, 35, 36, 23, 21] ∧
    cwSorted catanStep4.1 catanSortedPorts = true ∧
    posOf catanStep4.1 19 = (0, -6) ∧
    catanSortedPorts.head? = some 19 ∧
    catanBuilt.ports = oddIdx catanSortedPorts ∧
    catanBuilt.ports.length = 9 ∧
    (catanBuilt.ports.all fun p => tilePort catanBuilt p) = true ∧
    catanBuilt.hexes = List.range 19 ++ catanBuilt.ports := by
  exact ⟨by decide, by decide, by decide, by decide, by decide, by decide,
    by decide, by decide, by decide, by decide, by decide, by decide⟩

/-- Claim C6: `layout` with an empty validator list terminates after
exactly one trial, with `set_terrain`, `set_numbers` and `set_ports` each
executed exactly once (in that order) and the pass accepted immediately,
for every choice of orderings, start state and positive fuel. -/
theorem C6_layout_empty_validators :
    ∀ (tL : Nat → List String) (nL : Nat → List Int) (pL : Nat → List String)
      (f : Nat) (s : MapState),
      layout tL nL pL [] (f + 1) s =
        some (setPorts (setNumbers (setTerrain { s with tries := 0 } (tL 0)) (nL 0))
          (pL 0), 1) :=
  fun tL nL pL f s => layout_empty_accepts tL nL pL f s

set_option maxRecDepth 100000 in
/-- Claim C7: the port-to-terrain table maps `'BRICK'` to `'HILL'`, but
the terrain-to-port table's key is `'HILLS'` (the terrain name used
everywhere else), so the two tables are not mutual inverses at the
brick/hills pair; the other four resource pairs do round-trip. -/
theorem C7_port_terr_brick_mismatch :
    PORT_TO_TERR "BRICK" = some "HILL" ∧
    TERR_TO_PORT "HILL" = none ∧
    TERR_TO_PORT "HILLS" = some "BRICK" ∧
    ¬PORT_TO_TERR "BRICK" = some "HILLS" ∧
    (PORT_TO_TERR "GRAIN" = some "FIELD" ∧ TERR_TO_PORT "FIELD" = some "GRAIN") ∧
    (PORT_TO_TERR "ROCK" = some "MNTN" ∧ TERR_TO_PORT "MNTN" = some "ROCK") ∧
    (PORT_TO_TERR "SHEEP" = some "PSTR" ∧ TERR_TO_PORT "PSTR" = some "SHEEP") ∧
    (PORT_TO_TERR "WOOD" = some "FRST" ∧ TERR_TO_PORT "FRST" = some "WOOD") := by
  exact ⟨rfl, rfl, rfl, by decide, ⟨rfl, rfl⟩, ⟨rfl, rfl⟩, ⟨rfl, rfl⟩, ⟨rfl, rfl⟩⟩

/-- Claim C8: the factory calls `good_rock(4)`, `no_double_6_8()` and
`no_2_12()` do not return callables (the first two fall off the end of the
function returning `None`, the third raises `NameError`), and applying
`no_terr_tri()`'s result to a map raises `TypeError` instead of producing
a boolean; a working factory such as `max_pip` does return its validator. -/
theorem C8_broken_validator_factories :
    good_rock 4 = none ∧ no_double_6_8 = none ∧ no_2_12 = none ∧
    no_terr_tri_apply catanMap = none ∧ (max_pip 11).isSome = true :=
  ⟨rfl, rfl, rfl, rfl, rfl⟩

set_option maxRecDepth 100000 in
/-- Claim C9 counterexample: after `start_hex` and one `grow_hex`, tile 1
sits at (0, -1) (stored (0, -2)); the public operation
`new_neighbor(60, tile 1)` on tile 0 then reassigns tile 1's coordinates
to (1, -0.5) (stored (1, -1)) — a placed tile's coordinates changed under
a subsequent public operation. -/
theorem C9_coords_counterexample :
    tx cex2pre 1 = 0 ∧ ty cex2pre 1 = -2 ∧ tx cex2 1 = 1 ∧ ty cex2 1 = -1 := by
  exact ⟨by decide, by decide, by decide, by decide⟩

/-- Claim C9 (amended): every public operation other than a raw
`new_neighbor` call — start, grow, surround, delete, corner propagation,
terrain marking, port selection and the three layout setters — leaves the
coordinates of every already-placed tile unchanged and preserves the
link/coordinate coherence invariant, on every coherent map. -/
theorem C9_coords_fixed_amended :
    ∀ (op : MOp) (s : MapState), coordSafeB op = true → invB s = true →
      CoordsEq s (applyMOp s op) ∧ invB (applyMOp s op) = true := by
  intro op s hsafe hinv
  obtain ⟨h1, h2⟩ := mop_inv op s hsafe ((invB_iff s).1 hinv)
  exact ⟨h1, (invB_iff _).2 h2⟩

set_option maxRecDepth 1000000 in
set_option maxHeartbeats 8000000 in
/-- Claim C9 witness: the amended theorem applied to a corner-propagation
operation on the coherent standard board. -/
theorem C9_witness :
    CoordsEq catanBuilt (applyMOp catanBuilt (MOp.joinOp 0)) ∧
      invB (applyMOp catanBuilt (MOp.joinOp 0)) = true := by
  exact C9_coords_fixed_amended (MOp.joinOp 0) catanBuilt (by decide) (by decide)

set_option maxRecDepth 1000000 in
set_option maxHeartbeats 4000000 in
/-- Claim C10: the finished board's tile collection is not closed under
neighbor links: terrain tile 7 is in `hexes` and its neighbor at angle 0
is tile 19 — a discarded port candidate with the port flag set and terrain
`'NONE'` that is not in `hexes` but remains mutually linked (its neighbor
at 180 is tile 7). -/
theorem C10_hexes_not_closed :
    (7 : Nat) ∈ catanBuilt.hexes ∧
    tileNbr catanBuilt 7 0 = some 19 ∧
    (19 : Nat) ∉ catanBuilt.hexes ∧
    tilePort catanBuilt 19 = true ∧
    tileTerr catanBuilt 19 = "NONE" ∧
    tileNbr catanBuilt 19 180 = some 7 := by
  exact ⟨by decide, by decide, by decide, by decide, by decide, by decide⟩
